import Mathlib

/-!
Verification of the BudgetAgent bank-statement ingestion and deduplication
core (`src/budgetagent/modules/import_bank_data.py`,
`src/budgetagent/modules/account_manager.py`,
`src/budgetagent/modules/models.py`) against its natural-language
specification.

The Python code is shallowly embedded as executable Lean definitions:

* `pandas.DataFrame` values are modelled as `Dataset` (a header row plus a
  rectangular list of cells, a cell being `Option String` with `none`
  playing the role of `NaN`);
* `decimal.Decimal` values produced by the importer's amount grammar are
  modelled as `Dec` (sign, coefficient, number of fractional digits) and
  `Dec.toCanonicalString` mirrors `str()` on that plain (non-scientific)
  range;
* `datetime.date` is modelled as `Date` with its ISO rendering, and
  per-value date parsing (`pd.to_datetime` on ISO strings) as `parseDate`;
* the MD5 file checksum is modelled as an injective digest (the raw byte
  list itself) and SHA-256 on the transaction string as an injective digest
  (the hashed string itself); equality of digests is exactly equality of
  the hashed content, which is the property both hashes are used for;
* the YAML account registry is modelled as an insertion-ordered association
  list `Registry`, every read-modify-write cycle of the Python module
  becoming a pure `Registry → Registry` function;
* the filesystem is an association list from paths to `RawFile` values (the
  raw bytes together with the dataset that the accepted loader attempt
  yields for that file).
-/

namespace BudgetAgent

/-! ## Digits and decimal strings -/

/-- The ten ASCII digit characters. -/
def digitChars : List Char := "0123456789".data

/-- Character for a single digit value (values ≥ 9 clamp to `'9'`;
only ever applied to values < 10). -/
def digitChar (n : Nat) : Char :=
  match n with
  | 0 => '0' | 1 => '1' | 2 => '2' | 3 => '3' | 4 => '4'
  | 5 => '5' | 6 => '6' | 7 => '7' | 8 => '8' | _ => '9'

/-- Numeric value of an ASCII digit character (non-digits map to 0). -/
def digitVal (c : Char) : Nat :=
  match c with
  | '0' => 0 | '1' => 1 | '2' => 2 | '3' => 3 | '4' => 4
  | '5' => 5 | '6' => 6 | '7' => 7 | '8' => 8 | '9' => 9
  | _ => 0

/-- Is this character an ASCII digit? -/
def isDigitCh (c : Char) : Bool := digitChars.contains c

/-- Fuelled big-endian digit rendering of a natural number. -/
def natCharsAux : Nat → Nat → List Char
  | 0, _ => []
  | f + 1, n => if n < 10 then [digitChar n] else natCharsAux f (n / 10) ++ [digitChar (n % 10)]

/-- Big-endian decimal digit string of a natural number (`"0"` for zero). -/
def natChars (n : Nat) : List Char := natCharsAux (n + 1) n

/-- Value of a big-endian digit string. -/
def charsToNat (cs : List Char) : Nat := cs.foldl (fun a c => 10 * a + digitVal c) 0

theorem digitVal_digitChar (n : Nat) (h : n < 10) : digitVal (digitChar n) = n := by
  interval_cases n <;> rfl

theorem digitChar_mem (n : Nat) : digitChar n ∈ digitChars := by
  unfold digitChar
  split <;> simp [digitChars]

theorem charsToNat_from (cs : List Char) (a : Nat) :
    cs.foldl (fun a c => 10 * a + digitVal c) a = a * 10 ^ cs.length + charsToNat cs := by
  induction cs generalizing a with
  | nil => simp [charsToNat]
  | cons c cs ih =>
    simp only [List.foldl_cons, charsToNat]
    rw [ih, ih (10 * 0 + digitVal c)]
    simp [List.length_cons, pow_succ]
    ring

theorem charsToNat_append (xs ys : List Char) :
    charsToNat (xs ++ ys) = charsToNat xs * 10 ^ ys.length + charsToNat ys := by
  unfold charsToNat
  rw [List.foldl_append]
  rw [charsToNat_from ys (List.foldl (fun a c => 10 * a + digitVal c) 0 xs)]
  rfl

theorem natCharsAux_spec (fuel n : Nat) (h : n < fuel) :
    charsToNat (natCharsAux fuel n) = n ∧ natCharsAux fuel n ≠ [] ∧
    ∀ c ∈ natCharsAux fuel n, c ∈ digitChars := by
  induction fuel generalizing n with
  | zero => omega
  | succ fuel ih =>
    unfold natCharsAux
    by_cases hn : n < 10
    · simp only [if_pos hn]
      refine ⟨?_, by simp, ?_⟩
      · simp [charsToNat, digitVal_digitChar n hn]
      · intro c hc
        simp at hc
        subst hc
        exact digitChar_mem n
    · simp only [if_neg hn]
      have hlt : n / 10 < fuel := by omega
      obtain ⟨h1, h2, h3⟩ := ih (n / 10) hlt
      refine ⟨?_, by simp, ?_⟩
      · rw [charsToNat_append, h1]
        simp [charsToNat, digitVal_digitChar (n % 10) (Nat.mod_lt n (by norm_num))]
        omega
      · intro c hc
        rcases List.mem_append.mp hc with hc | hc
        · exact h3 c hc
        · simp at hc
          subst hc
          exact digitChar_mem (n % 10)

theorem charsToNat_natChars (n : Nat) : charsToNat (natChars n) = n :=
  (natCharsAux_spec (n + 1) n (Nat.lt_succ_self n)).1

theorem natChars_ne_nil (n : Nat) : natChars n ≠ [] :=
  (natCharsAux_spec (n + 1) n (Nat.lt_succ_self n)).2.1

theorem natChars_mem_digit (n : Nat) : ∀ c ∈ natChars n, c ∈ digitChars :=
  (natCharsAux_spec (n + 1) n (Nat.lt_succ_self n)).2.2

theorem natChars_injective : Function.Injective natChars := by
  intro a b h
  have := charsToNat_natChars a
  rw [h, charsToNat_natChars] at this
  omega

/-- Left-pad a digit string with `'0'` up to width `w`. -/
def leftPad (w : Nat) (cs : List Char) : List Char :=
  List.replicate (w - cs.length) '0' ++ cs

theorem charsToNat_replicate_zero (k : Nat) (xs : List Char) :
    charsToNat (List.replicate k '0' ++ xs) = charsToNat xs := by
  rw [charsToNat_append]
  have : charsToNat (List.replicate k '0') = 0 := by
    induction k with
    | zero => rfl
    | succ k ih =>
      rw [List.replicate_succ]
      unfold charsToNat at *
      simpa [digitVal] using ih
  rw [this]
  ring

theorem charsToNat_leftPad (w : Nat) (cs : List Char) :
    charsToNat (leftPad w cs) = charsToNat cs :=
  charsToNat_replicate_zero _ _

theorem leftPad_mem_digit (w : Nat) (cs : List Char) (hcs : ∀ c ∈ cs, c ∈ digitChars) :
    ∀ c ∈ leftPad w cs, c ∈ digitChars := by
  intro c hc
  rcases List.mem_append.mp hc with hc | hc
  · have := List.eq_of_mem_replicate hc
    subst this
    simp [digitChars]
  · exact hcs c hc

theorem leftPad_length (w : Nat) (cs : List Char) :
    (leftPad w cs).length = max w cs.length := by
  simp [leftPad]
  omega

/-! ## Decimal numbers (`decimal.Decimal` on the importer's plain grammar)

`Dec` models a Python `Decimal` with a non-positive exponent as produced by
`Decimal(s)` on a plain numeric literal: a sign, a coefficient, and the
number of fractional digits `e` (the Python exponent is `-e`).
`Dec.toCanonicalString` mirrors `str()` on the plain range (adjusted
exponent ≥ -6, exponent ≤ 0); the scientific-notation branch of
`Decimal.__str__` lies outside the modelled grammar. -/

/-- A parsed decimal number: `(-1)^sign * coeff / 10^e`. -/
structure Dec where
  sign : Bool
  coeff : Nat
  e : Nat
deriving DecidableEq, Repr

/-- Digit/point body of the canonical string of a `Dec` (everything after
the optional minus sign). -/
def decBodyChars (c : Nat) (e : Nat) : List Char :=
  if e = 0 then natChars c
  else
    let ds := leftPad (e + 1) (natChars c)
    ds.take (ds.length - e) ++ '.' :: ds.drop (ds.length - e)

/-- Canonical string of a `Dec`, mirroring Python `str(Decimal(...))` on
the plain (non-scientific) range: e.g. `"-500.00"`, `"0.5"`, `"5"`. -/
def Dec.toCanonicalString (d : Dec) : String :=
  (if d.sign then "-" else "") ++ String.mk (decBodyChars d.coeff d.e)

/-- The numeric (rational) value of a `Dec`. -/
def Dec.toRat (d : Dec) : ℚ :=
  (if d.sign then -(d.coeff : ℚ) else (d.coeff : ℚ)) / 10 ^ d.e

/-- Numeric zero test (`v == 0` on Python `Decimal`s). -/
def Dec.isZero (d : Dec) : Bool := d.coeff = 0

theorem decBodyChars_mem (c e : Nat) :
    ∀ ch ∈ decBodyChars c e, ch ∈ digitChars ∨ ch = '.' := by
  intro ch hch
  unfold decBodyChars at hch
  split at hch
  · exact Or.inl (natChars_mem_digit c ch hch)
  · rcases List.mem_append.mp hch with h | h
    · exact Or.inl (leftPad_mem_digit _ _ (natChars_mem_digit c) ch (List.mem_of_mem_take h))
    · rcases List.mem_cons.mp h with h | h
      · exact Or.inr h
      · exact Or.inl (leftPad_mem_digit _ _ (natChars_mem_digit c) ch (List.mem_of_mem_drop h))

theorem decBodyChars_ne_nil (c e : Nat) : decBodyChars c e ≠ [] := by
  unfold decBodyChars
  split
  · exact natChars_ne_nil c
  · intro h
    rcases List.append_eq_nil.mp h with ⟨_, h2⟩
    exact List.cons_ne_nil _ _ h2

/-- Uniqueness of splitting at a separator that occurs in neither prefix. -/
theorem append_sep_inj {α : Type} (sep : α) :
    ∀ (a c b d : List α), sep ∉ a → sep ∉ c → a ++ sep :: b = c ++ sep :: d →
      a = c ∧ b = d := by
  intro a
  induction a with
  | nil =>
    intro c b d _ hc h
    cases c with
    | nil => simpa using h
    | cons x cs =>
      simp only [List.nil_append, List.cons_append, List.cons.injEq] at h
      exact absurd (h.1 ▸ List.mem_cons_self x cs) hc
  | cons x xs ih =>
    intro c b d ha hc h
    cases c with
    | nil =>
      simp only [List.cons_append, List.nil_append, List.cons.injEq] at h
      exact absurd (h.1 ▸ List.mem_cons_self x xs) ha
    | cons y cs =>
      simp only [List.cons_append, List.cons.injEq] at h
      obtain ⟨hxy, h2⟩ := h
      have := ih cs b d (fun hm => ha (List.mem_cons_of_mem x hm))
        (fun hm => hc (hxy ▸ List.mem_cons_of_mem y hm)) h2
      exact ⟨by rw [hxy, this.1], this.2⟩

theorem dot_not_digit : '.' ∉ digitChars := by decide

theorem dash_not_digit : '-' ∉ digitChars := by decide

theorem pipe_not_digit : '|' ∉ digitChars := by decide

theorem decBodyChars_zero (c : Nat) : decBodyChars c 0 = natChars c := by
  unfold decBodyChars
  simp

theorem decBodyChars_inj (c1 e1 c2 e2 : Nat)
    (h : decBodyChars c1 e1 = decBodyChars c2 e2) : c1 = c2 ∧ e1 = e2 := by
  have key : ∀ c e, e ≠ 0 →
      ∃ A B, decBodyChars c e = A ++ '.' :: B ∧ '.' ∉ A ∧ B.length = e ∧
        charsToNat (A ++ B) = c := by
    intro c e he
    refine ⟨(leftPad (e + 1) (natChars c)).take ((leftPad (e + 1) (natChars c)).length - e),
            (leftPad (e + 1) (natChars c)).drop ((leftPad (e + 1) (natChars c)).length - e),
            ?_, ?_, ?_, ?_⟩
    · unfold decBodyChars
      rw [if_neg he]
    · intro hmem
      have := leftPad_mem_digit (e + 1) (natChars c) (natChars_mem_digit c) '.'
        (List.mem_of_mem_take hmem)
      exact dot_not_digit this
    · have hlen : (leftPad (e + 1) (natChars c)).length = max (e + 1) (natChars c).length :=
        leftPad_length _ _
      rw [List.length_drop, hlen]
      omega
    · rw [List.take_append_drop, charsToNat_leftPad, charsToNat_natChars]
  by_cases h1 : e1 = 0 <;> by_cases h2 : e2 = 0
  · subst h1; subst h2
    refine ⟨?_, rfl⟩
    rw [decBodyChars_zero, decBodyChars_zero] at h
    exact natChars_injective h
  · exfalso
    obtain ⟨A, B, hAB, _, _, _⟩ := key c2 e2 h2
    subst h1
    rw [hAB, decBodyChars_zero] at h
    have : '.' ∈ natChars c1 := by
      rw [h]
      exact List.mem_append.mpr (Or.inr (List.mem_cons_self _ _))
    exact dot_not_digit (natChars_mem_digit c1 '.' this)
  · exfalso
    obtain ⟨A, B, hAB, _, _, _⟩ := key c1 e1 h1
    subst h2
    rw [hAB, decBodyChars_zero] at h
    have : '.' ∈ natChars c2 := by
      rw [← h]
      exact List.mem_append.mpr (Or.inr (List.mem_cons_self _ _))
    exact dot_not_digit (natChars_mem_digit c2 '.' this)
  · obtain ⟨A1, B1, hAB1, hA1, hB1, hc1⟩ := key c1 e1 h1
    obtain ⟨A2, B2, hAB2, hA2, hB2, hc2⟩ := key c2 e2 h2
    rw [hAB1, hAB2] at h
    obtain ⟨hA, hB⟩ := append_sep_inj '.' A1 A2 B1 B2 hA1 hA2 h
    constructor
    · rw [← hc1, ← hc2, hA, hB]
    · rw [← hB1, ← hB2, hB]

theorem dec_toCanonicalString_mem (d : Dec) :
    ∀ ch ∈ (Dec.toCanonicalString d).data, ch ∈ digitChars ∨ ch = '.' ∨ ch = '-' := by
  intro ch hch
  unfold Dec.toCanonicalString at hch
  rcases d with ⟨sign, c, e⟩
  cases sign with
  | false =>
    have hch' : ch ∈ decBodyChars c e := by
      simpa [String.data_append] using hch
    rcases decBodyChars_mem c e ch hch' with h | h
    · exact Or.inl h
    · exact Or.inr (Or.inl h)
  | true =>
    have hch' : ch ∈ '-' :: decBodyChars c e := by
      simpa [String.data_append] using hch
    rcases List.mem_cons.mp hch' with h | h
    · exact Or.inr (Or.inr h)
    · rcases decBodyChars_mem c e ch h with h2 | h2
      · exact Or.inl h2
      · exact Or.inr (Or.inl h2)

theorem dec_toCanonicalString_inj : Function.Injective Dec.toCanonicalString := by
  intro d1 d2 h
  rcases d1 with ⟨s1, c1, e1⟩
  rcases d2 with ⟨s2, c2, e2⟩
  unfold Dec.toCanonicalString at h
  have hdata := congrArg String.data h
  simp only [String.data_append] at hdata
  have hbody : ∀ (b : List Char), (String.mk b).data = b := fun _ => rfl
  cases s1 with
  | false =>
    cases s2 with
    | false =>
      simp only [if_neg (Bool.false_ne_true)] at hdata
      have : decBodyChars c1 e1 = decBodyChars c2 e2 := by
        simpa [hbody] using hdata
      obtain ⟨hc, he⟩ := decBodyChars_inj _ _ _ _ this
      simp [hc, he]
    | true =>
      exfalso
      simp only [if_neg (Bool.false_ne_true), if_pos rfl] at hdata
      have : ('-' : Char) ∈ decBodyChars c1 e1 := by
        have h1 : decBodyChars c1 e1 = '-' :: decBodyChars c2 e2 := by
          simpa [hbody] using hdata
        rw [h1]
        exact List.mem_cons_self _ _
      rcases decBodyChars_mem c1 e1 '-' this with hm | hm
      · exact dash_not_digit hm
      · simp at hm
  | true =>
    cases s2 with
    | false =>
      exfalso
      simp only [if_neg (Bool.false_ne_true), if_pos rfl] at hdata
      have : ('-' : Char) ∈ decBodyChars c2 e2 := by
        have h1 : '-' :: decBodyChars c1 e1 = decBodyChars c2 e2 := by
          simpa [hbody] using hdata
        rw [← h1]
        exact List.mem_cons_self _ _
      rcases decBodyChars_mem c2 e2 '-' this with hm | hm
      · exact dash_not_digit hm
      · simp at hm
    | true =>
      simp only [if_pos rfl] at hdata
      have : decBodyChars c1 e1 = decBodyChars c2 e2 := by
        have h1 : '-' :: decBodyChars c1 e1 = '-' :: decBodyChars c2 e2 := by
          simpa [hbody] using hdata
        simpa using h1
      obtain ⟨hc, he⟩ := decBodyChars_inj _ _ _ _ this
      simp [hc, he]

/-! ## Parsing decimals

`parseDecimal` models `decimal.Decimal(s)` on the plain numeric grammar
(optional sign, digits, optional fraction part; no exponent): the grammar
that normalized bank amounts inhabit after the importer's
`str(value).replace(',', '.')` step. -/

/-- Split a character list at a single `'.'`; `none` if more than one dot. -/
def splitOnDot (cs : List Char) : Option (List Char × List Char) :=
  match cs.splitOn '.' with
  | [ip] => some (ip, [])
  | [ip, fp] => some (ip, fp)
  | _ => none

/-- Whitespace test matching Python `str.strip` on the ASCII range. -/
def isSpaceCh (c : Char) : Bool := " \t\n\r".data.contains c

/-- Strip leading and trailing whitespace from a character list. -/
def trimChars (cs : List Char) : List Char :=
  ((cs.dropWhile isSpaceCh).reverse.dropWhile isSpaceCh).reverse

/-- Strip leading and trailing whitespace from a string. -/
def strTrim (s : String) : String := String.mk (trimChars s.data)

/-- `decimal.Decimal(s)` on the plain grammar; `none` when the constructor
would raise `InvalidOperation`. -/
def parseDecimal (s : String) : Option Dec :=
  let t := trimChars s.data
  let (sign, t) : Bool × List Char :=
    match t with
    | '-' :: r => (true, r)
    | '+' :: r => (false, r)
    | r => (false, r)
  match splitOnDot t with
  | some (ip, fp) =>
      if (ip ++ fp).all isDigitCh ∧ ip ++ fp ≠ [] then
        some ⟨sign, charsToNat (ip ++ fp), fp.length⟩
      else none
  | none => none

/-! ## Dates (`datetime.date`) -/

/-- A calendar date; `parseDate` only constructs calendar-valid ones. -/
structure Date where
  year : Nat
  month : Nat
  day : Nat
deriving DecidableEq, Repr

/-- Number of days in a month of a given (proleptic Gregorian) year. -/
def daysInMonth (year month : Nat) : Nat :=
  if month = 2 then
    if year % 4 = 0 ∧ (year % 100 ≠ 0 ∨ year % 400 = 0) then 29 else 28
  else if month = 4 ∨ month = 6 ∨ month = 9 ∨ month = 11 then 30
  else 31

/-- ISO rendering `YYYY-MM-DD` of a date, matching Python `str(date)`. -/
def dateIso (d : Date) : String :=
  String.mk (leftPad 4 (natChars d.year) ++ '-' ::
    (leftPad 2 (natChars d.month) ++ '-' :: leftPad 2 (natChars d.day)))

/-- `pd.to_datetime(s).date()` restricted to the ISO `YYYY-MM-DD` grammar;
`none` models the parser raising.  (pandas accepts more layouts; the
claims only exercise ISO dates and clearly unparseable text.) -/
def parseDate (s : String) : Option Date :=
  match trimChars s.data with
  | [y1, y2, y3, y4, '-', m1, m2, '-', d1, d2] =>
    if [y1, y2, y3, y4, m1, m2, d1, d2].all isDigitCh then
      let y := charsToNat [y1, y2, y3, y4]
      let m := charsToNat [m1, m2]
      let d := charsToNat [d1, d2]
      if 1 ≤ y ∧ 1 ≤ m ∧ m ≤ 12 ∧ 1 ≤ d ∧ d ≤ daysInMonth y m then
        some ⟨y, m, d⟩
      else none
    else none
  | _ => none

theorem dateIso_mem (d : Date) :
    ∀ ch ∈ (dateIso d).data, ch ∈ digitChars ∨ ch = '-' := by
  intro ch hch
  have hch' : ch ∈ leftPad 4 (natChars d.year) ++ '-' ::
      (leftPad 2 (natChars d.month) ++ '-' :: leftPad 2 (natChars d.day)) := hch
  rcases List.mem_append.mp hch' with h | h
  · exact Or.inl (leftPad_mem_digit _ _ (natChars_mem_digit _) ch h)
  · rcases List.mem_cons.mp h with h | h
    · exact Or.inr h
    · rcases List.mem_append.mp h with h | h
      · exact Or.inl (leftPad_mem_digit _ _ (natChars_mem_digit _) ch h)
      · rcases List.mem_cons.mp h with h | h
        · exact Or.inr h
        · exact Or.inl (leftPad_mem_digit _ _ (natChars_mem_digit _) ch h)

theorem dash_notin_pad (w : Nat) (n : Nat) : ('-' : Char) ∉ leftPad w (natChars n) := by
  intro hmem
  exact dash_not_digit (leftPad_mem_digit _ _ (natChars_mem_digit _) '-' hmem)

theorem dateIso_inj : Function.Injective dateIso := by
  intro a b h
  have hdata : leftPad 4 (natChars a.year) ++ '-' ::
      (leftPad 2 (natChars a.month) ++ '-' :: leftPad 2 (natChars a.day)) =
      leftPad 4 (natChars b.year) ++ '-' ::
      (leftPad 2 (natChars b.month) ++ '-' :: leftPad 2 (natChars b.day)) :=
    congrArg String.data h
  obtain ⟨hy, hrest⟩ := append_sep_inj '-' _ _ _ _ (dash_notin_pad 4 a.year)
    (dash_notin_pad 4 b.year) hdata
  obtain ⟨hm, hd⟩ := append_sep_inj '-' _ _ _ _ (dash_notin_pad 2 a.month)
    (dash_notin_pad 2 b.month) hrest
  have hy' : a.year = b.year := by
    have := congrArg charsToNat hy
    rwa [charsToNat_leftPad, charsToNat_leftPad, charsToNat_natChars,
      charsToNat_natChars] at this
  have hm' : a.month = b.month := by
    have := congrArg charsToNat hm
    rwa [charsToNat_leftPad, charsToNat_leftPad, charsToNat_natChars,
      charsToNat_natChars] at this
  have hd' : a.day = b.day := by
    have := congrArg charsToNat hd
    rwa [charsToNat_leftPad, charsToNat_leftPad, charsToNat_natChars,
      charsToNat_natChars] at this
  cases a; cases b
  simp_all

/-! ## The `Transaction` model (`models.py`) -/

/-- `models.Transaction`: a validated bank transaction. -/
structure Transaction where
  date : Date
  amount : Dec
  description : String
  category : Option String
  currency : String
  metadata : List (String × String)
deriving DecidableEq, Repr

/-- The Pydantic constructor of `Transaction` with the
`amount_must_not_be_zero` field validator: a numerically zero amount
raises `ValueError` (modelled as `.error`). -/
def Transaction.make (date : Date) (amount : Dec) (description : String)
    (category : Option String) (currency : String)
    (metadata : List (String × String)) : Except String Transaction :=
  if amount.isZero then .error "Belopp kan inte vara noll"
  else .ok ⟨date, amount, description, category, currency, metadata⟩

/-- `account_manager.calculate_transaction_hash`'s input string
`f"{date}|{amount}|{description}|{currency}"`. -/
def transactionStr (t : Transaction) : String :=
  dateIso t.date ++ "|" ++ Dec.toCanonicalString t.amount ++ "|" ++
    t.description ++ "|" ++ t.currency

/-- `account_manager.calculate_transaction_hash`: SHA-256 of
`transactionStr`, modelled as an injective digest (the input string
itself); digest equality is exactly input-string equality. -/
def calculate_transaction_hash (t : Transaction) : String := transactionStr t

theorem transactionStr_data (t : Transaction) :
    (transactionStr t).data = (dateIso t.date).data ++ '|' ::
      ((Dec.toCanonicalString t.amount).data ++ '|' ::
        (t.description.data ++ '|' :: t.currency.data)) := by
  simp [transactionStr, String.data_append]

theorem pipe_notin_dateIso (d : Date) : ('|' : Char) ∉ (dateIso d).data := by
  intro hmem
  rcases dateIso_mem d '|' hmem with h | h
  · exact pipe_not_digit h
  · simp at h

theorem pipe_notin_dec (d : Dec) : ('|' : Char) ∉ (Dec.toCanonicalString d).data := by
  intro hmem
  rcases dec_toCanonicalString_mem d '|' hmem with h | h | h
  · exact pipe_not_digit h
  · simp at h
  · simp at h

theorem transactionStr_inj_of_pipe_free (t1 t2 : Transaction)
    (hd1 : ('|' : Char) ∉ t1.description.data)
    (hd2 : ('|' : Char) ∉ t2.description.data)
    (h : transactionStr t1 = transactionStr t2) :
    t1.date = t2.date ∧ t1.amount = t2.amount ∧
      t1.description = t2.description ∧ t1.currency = t2.currency := by
  have hdata := congrArg String.data h
  rw [transactionStr_data, transactionStr_data] at hdata
  obtain ⟨hdate, hrest⟩ := append_sep_inj '|' _ _ _ _ (pipe_notin_dateIso t1.date)
    (pipe_notin_dateIso t2.date) hdata
  obtain ⟨hamt, hrest2⟩ := append_sep_inj '|' _ _ _ _ (pipe_notin_dec t1.amount)
    (pipe_notin_dec t2.amount) hrest
  obtain ⟨hdesc, hcurr⟩ := append_sep_inj '|' _ _ _ _ hd1 hd2 hrest2
  refine ⟨?_, ?_, ?_, ?_⟩
  · exact dateIso_inj (by apply congrArg String.mk hdate)
  · exact dec_toCanonicalString_inj (by apply congrArg String.mk hamt)
  · exact congrArg String.mk hdesc
  · exact congrArg String.mk hcurr

/-! ## Datasets (`pandas.DataFrame`) -/

/-- A dataframe cell: `none` is `NaN`. -/
abbrev Cell := Option String

/-- A raw rectangular dataset: named columns plus rows of cells. -/
structure Dataset where
  columns : List String
  rows : List (List Cell)
deriving DecidableEq, Repr

/-- `DataFrame.empty`: true when either axis has length zero. -/
def Dataset.emptyDf (ds : Dataset) : Bool := ds.rows.isEmpty || ds.columns.isEmpty

/-- Cell of a row under a column name: `none` when the column is missing
(a `KeyError` site), `some none` when the cell is `NaN`.  Rows shorter
than the header are padded with `NaN`. -/
def lookupCell : List String → List Cell → String → Option Cell
  | [], _, _ => none
  | c :: cs, [], name => if c = name then some none else lookupCell cs [] name
  | c :: cs, v :: vs, name => if c = name then some v else lookupCell cs vs name

/-- The cells of a named column (all `NaN` when the column is missing;
callers check membership first, as the Python code does). -/
def column (ds : Dataset) (name : String) : List Cell :=
  ds.rows.map (fun r => (lookupCell ds.columns r name).getD none)

/-- `series.isna().all()`. -/
def allNull (cells : List Cell) : Bool := cells.all (·.isNone)

/-- `series.dropna().iloc[0]` when it exists. -/
def firstNonNull (cells : List Cell) : Option String := (cells.filterMap id).head?

/-- `series.dropna().iloc[-1]` when it exists: the last non-null value in
file row order. -/
def lastNonNull (cells : List Cell) : Option String := (cells.filterMap id).getLast?

/-- `df.dropna(how='all')`: drop rows whose cells are all `NaN`. -/
def dropAllNa (ds : Dataset) : Dataset :=
  ⟨ds.columns, ds.rows.filter (fun r => ¬ r.all (·.isNone))⟩

/-- Python `str.lower` (ASCII range; the Swedish lowercase letters used in
headers are already lowercase and are fixed by both). -/
def strLower (s : String) : String := String.mk (s.data.map Char.toLower)

/-- Python `str.strip().upper()` (ASCII range). -/
def strStripUpper (s : String) : String :=
  String.mk ((trimChars s.data).map Char.toUpper)

/-- `str(v).replace(',', '.').replace(' ', '')` — the cleanup applied to
candidate balance values before `Decimal(...)`. -/
def cleanNumStr (s : String) : String :=
  String.mk ((s.data.map (fun c => if c = ',' then '.' else c)).filter (fun c => c ≠ ' '))

/-- `str(v).replace(',', '.')` — the cleanup applied to amounts. -/
def commaToDot (s : String) : String :=
  String.mk (s.data.map (fun c => if c = ',' then '.' else c))

/-! ## `import_bank_data.detect_format` -/

/-- `import_bank_data.detect_format`: the prioritized column-name rule
chain mapping a dataset to a bank format tag. -/
def detect_format (ds : Dataset) : String :=
  if ds.emptyDf then "Unknown"
  else
    let columns := ds.columns.map strLower
    if ("bokföringsdatum" ∈ columns ∨ "bokföringsdag" ∈ columns) ∧ "belopp" ∈ columns ∧
        ("rubrik" ∈ columns ∨ "namn" ∈ columns ∨ ("avsändare" ∈ columns ∨ "mottagare" ∈ columns)) ∧
        ¬ ("saldo" ∈ columns ∧ "valutadatum" ∉ columns ∧ "rubrik" ∉ columns) then
      "Nordea"
    else if "datum" ∈ columns ∧ "belopp" ∈ columns ∧ "beskrivning" ∈ columns then
      "Swedbank"
    else if "bokföringsdatum" ∈ columns ∧ "saldo" ∈ columns then
      "SEB"
    else if "completed date" ∈ columns ∨
        ("description" ∈ columns ∧ "amount" ∈ columns ∧ "currency" ∈ columns) then
      "Revolut"
    else if ("date" ∈ columns ∨ "datum" ∈ columns) ∧ ("amount" ∈ columns ∨ "belopp" ∈ columns) then
      "Generic"
    else "Unknown"

/-! ## `import_bank_data.normalize_columns`

`DataFrame.rename(columns=mapping)` is embedded as mapping each column
name through the total function the built dictionary denotes (a name not
in the dictionary maps to itself). -/

/-- The Swedbank rename dictionary as a function. -/
def swedbankMap (c : String) : String :=
  if c = "Datum" then "date"
  else if c = "Belopp" then "amount"
  else if c = "Beskrivning" then "description"
  else if c = "Valuta" then "currency"
  else c

/-- The SEB rename dictionary as a function. -/
def sebMap (c : String) : String :=
  if c = "Bokföringsdatum" then "date"
  else if c = "Belopp" then "amount"
  else if c = "Mottagare" then "description"
  else if c = "Valuta" then "currency"
  else c

/-- The Revolut rename dictionary as a function. -/
def revolutMap (c : String) : String :=
  if c = "Completed Date" then "date"
  else if c = "Amount" then "amount"
  else if c = "Description" then "description"
  else if c = "Currency" then "currency"
  else c

/-- The Generic rename loop as a function. -/
def genericMap (c : String) : String :=
  let l := strLower c
  if l = "date" ∨ l = "datum" then "date"
  else if l = "amount" ∨ l = "belopp" then "amount"
  else if l = "description" ∨ l = "beskrivning" ∨ l = "rubrik" then "description"
  else if l = "currency" ∨ l = "valuta" then "currency"
  else c

/-- The date key the Nordea branch puts in its rename dictionary. -/
def nordeaDateKey (ds : Dataset) : Option String :=
  if "Bokföringsdatum" ∈ ds.columns then some "Bokföringsdatum"
  else if "Bokföringsdag" ∈ ds.columns then some "Bokföringsdag"
  else none

/-- The description key the Nordea branch puts in its rename dictionary:
non-empty `Rubrik` > non-empty `Namn` > `Avsändare` > `Mottagare`. -/
def nordeaDescKey (ds : Dataset) : Option String :=
  if "Rubrik" ∈ ds.columns ∧ ¬ allNull (column ds "Rubrik") then some "Rubrik"
  else if "Namn" ∈ ds.columns ∧ ¬ allNull (column ds "Namn") then some "Namn"
  else if "Avsändare" ∈ ds.columns then some "Avsändare"
  else if "Mottagare" ∈ ds.columns then some "Mottagare"
  else none

/-- The currency key the Nordea branch puts in its rename dictionary: when
both `Saldo` and `Valuta` are present, `Saldo` is chosen exactly when the
`Valuta` column is entirely null. -/
def nordeaCurrencyKey (ds : Dataset) : Option String :=
  if "Saldo" ∈ ds.columns ∧ "Valuta" ∈ ds.columns then
    if allNull (column ds "Valuta") then some "Saldo" else some "Valuta"
  else if "Valuta" ∈ ds.columns then some "Valuta"
  else if "Saldo" ∈ ds.columns then some "Saldo"
  else none

/-- The Nordea rename dictionary as a function (its key sets — date,
`Belopp`, description, currency — are pairwise disjoint). -/
def nordeaMap (ds : Dataset) (c : String) : String :=
  if nordeaDateKey ds = some c then "date"
  else if c = "Belopp" then "amount"
  else if nordeaDescKey ds = some c then "description"
  else if nordeaCurrencyKey ds = some c then "currency"
  else c

/-- `df.rename(columns=mapping)` for a mapping given as a function. -/
def renameDs (f : String → String) (ds : Dataset) : Dataset :=
  ⟨ds.columns.map f, ds.rows⟩

/-- Pad a row with `NaN` to the width of the header. -/
def padTo (n : Nat) (r : List Cell) : List Cell :=
  r.take n ++ List.replicate (n - r.length) none

/-- `df[name] = val`: append a constant column. -/
def addConstCol (ds : Dataset) (name val : String) : Dataset :=
  ⟨ds.columns ++ [name], ds.rows.map (fun r => padTo ds.columns.length r ++ [some val])⟩

/-- The four canonical column names, in selection order. -/
def canonicalCols : List String := ["date", "amount", "description", "currency"]

/-- `df[[c for c in canonical if c in df.columns]]`. -/
def selectCols (ds : Dataset) (names : List String) : Dataset :=
  let avail := names.filter (fun n => n ∈ ds.columns)
  ⟨avail, ds.rows.map (fun r => avail.map (fun n => (lookupCell ds.columns r n).getD none))⟩

/-- The rename mapping `normalize_columns` builds for a recognized format
tag. -/
def formatMapping (ds : Dataset) (format : String) : String → String :=
  if format = "Nordea" then nordeaMap ds
  else if format = "Swedbank" then swedbankMap
  else if format = "SEB" then sebMap
  else if format = "Revolut" then revolutMap
  else genericMap

/-- `import_bank_data.normalize_columns`: per-format projection onto the
canonical quad, with `currency` defaulted to `"SEK"` when unresolved; an
unrecognized format tag returns the dataset unchanged. -/
def normalize_columns (ds : Dataset) (format : String) : Dataset :=
  if format = "Nordea" ∨ format = "Swedbank" ∨ format = "SEB" ∨
      format = "Revolut" ∨ format = "Generic" then
    let df := renameDs (formatMapping ds format) ds
    let df := if "currency" ∈ df.columns then df else addConstCol df "currency" "SEK"
    selectCols df canonicalCols
  else ds

/-! ## `import_bank_data.extract_balance_info`

The only raise site in the function is `pd.to_datetime` on a last non-null
booking-date value (the `Decimal` conversions are wrapped in
`try/except`); a raise is modelled as `Except.error ()`. -/

/-- The ISO codes the Nordea branch samples for. -/
def currencyCodes : List String := ["SEK", "EUR", "USD", "NOK", "DKK"]

/-- Columns excluded from the Nordea fallback balance scan. -/
def nordeaScanExcluded : List String :=
  ["Belopp", "Bokföringsdatum", "Bokföringsdag", "Rubrik", "Namn",
   "Avsändare", "Mottagare", "Valuta"]

/-- Nordea balance-date extraction (`Bokföringsdatum`, else
`Bokföringsdag`); an unparseable last non-null value raises. -/
def nordeaBalanceDate (ds : Dataset) : Except Unit (Option Date) :=
  if "Bokföringsdatum" ∈ ds.columns then
    match lastNonNull (column ds "Bokföringsdatum") with
    | none => .ok none
    | some v =>
      match parseDate v with
      | some d => .ok (some d)
      | none => .error ()
  else if "Bokföringsdag" ∈ ds.columns then
    match lastNonNull (column ds "Bokföringsdag") with
    | none => .ok none
    | some v =>
      match parseDate v with
      | some d => .ok (some d)
      | none => .error ()
  else .ok none

/-- Nordea balance and currency, cases 1 and 2 of the branch
(`Saldo`-holds-currency-codes swap, else plain `Saldo` column). -/
def nordeaBalCur (ds : Dataset) : Option Dec × String :=
  if "Saldo" ∈ ds.columns ∧ "Rubrik" ∈ ds.columns ∧ "Valuta" ∈ ds.columns then
    match firstNonNull (column ds "Saldo") with
    | none => (none, "SEK")
    | some fv =>
      let fvU := strStripUpper fv
      if fvU ∈ currencyCodes then
        ((if ¬ allNull (column ds "Rubrik") then
            match lastNonNull (column ds "Rubrik") with
            | some bv => parseDecimal (cleanNumStr bv)
            | none => none
          else none), fvU)
      else
        ((match lastNonNull (column ds "Saldo") with
          | some bv => parseDecimal (cleanNumStr bv)
          | none => none),
         (if ¬ allNull (column ds "Valuta") then
            (firstNonNull (column ds "Valuta")).getD "SEK"
          else "SEK"))
  else if "Saldo" ∈ ds.columns then
    ((if ¬ allNull (column ds "Saldo") then
        match lastNonNull (column ds "Saldo") with
        | some bv => parseDecimal (cleanNumStr bv)
        | none => none
      else none),
     (if "Valuta" ∈ ds.columns ∧ ¬ allNull (column ds "Valuta") then
        (firstNonNull (column ds "Valuta")).getD "SEK"
      else "SEK"))
  else (none, "SEK")

/-- Nordea case 3: scan unclaimed columns, in header order, for one whose
last non-null value converts to `Decimal`. -/
def nordeaFallbackScan (ds : Dataset) : List String → Option Dec
  | [] => none
  | c :: cs =>
    if c ∈ nordeaScanExcluded then nordeaFallbackScan ds cs
    else
      match lastNonNull (column ds c) with
      | none => nordeaFallbackScan ds cs
      | some v =>
        match parseDecimal (cleanNumStr v) with
        | some b => some b
        | none => nordeaFallbackScan ds cs

/-- SEB balance-date extraction; an unparseable last non-null
`Bokföringsdatum` value raises. -/
def sebBalanceDate (ds : Dataset) : Except Unit (Option Date) :=
  if "Bokföringsdatum" ∈ ds.columns then
    match lastNonNull (column ds "Bokföringsdatum") with
    | none => .ok none
    | some v =>
      match parseDate v with
      | some d => .ok (some d)
      | none => .error ()
  else .ok none

/-- `import_bank_data.extract_balance_info`: recover the statement's
(balance, as-of-date, currency) triple, or report absence; only the
Nordea and SEB branches assign a balance. -/
def extract_balance_info (ds : Dataset) (bank_format : String) :
    Except Unit (Option (Dec × Date × String)) :=
  if bank_format = "Nordea" then
    match nordeaBalanceDate ds with
    | .error _ => .error ()
    | .ok bdate =>
      let bc := nordeaBalCur ds
      let bal : Option Dec :=
        match bc.1 with
        | some b => some b
        | none => nordeaFallbackScan ds ds.columns
      match bal, bdate with
      | some b, some d => .ok (some (b, d, bc.2))
      | _, _ => .ok none
  else if bank_format = "SEB" then
    let bal : Option Dec :=
      if "Saldo" ∈ ds.columns ∧ ¬ allNull (column ds "Saldo") then
        match lastNonNull (column ds "Saldo") with
        | some v => parseDecimal (cleanNumStr v)
        | none => none
      else none
    match sebBalanceDate ds with
    | .error _ => .error ()
    | .ok bdate =>
      let cur : String :=
        if "Valuta" ∈ ds.columns ∧ ¬ allNull (column ds "Valuta") then
          (firstNonNull (column ds "Valuta")).getD "SEK"
        else "SEK"
      match bal, bdate with
      | some b, some d => .ok (some (b, d, cur))
      | _, _ => .ok none
  else .ok none

/-! ## Filesystem and `load_file` -/

/-- A file on disk: its raw bytes (for checksumming) and the dataset the
accepted loader attempt yields for it (the CSV separator/encoding cascade
itself is not modelled; its ">1 column" acceptance rule is). -/
structure RawFile where
  bytes : List Nat
  data : Dataset
deriving DecidableEq, Repr

/-- The local filesystem, as a map from paths to files. -/
abbrev FS := List (String × RawFile)

/-- Look a path up on the filesystem. -/
def lookupFile (fs : FS) (path : String) : Option RawFile :=
  (fs.find? (fun p => p.1 = path)).map (fun p => p.2)

/-- The whole-file digest type. -/
abbrev Checksum := List Nat

/-- `account_manager.calculate_file_checksum`: streamed whole-file MD5,
modelled as an injective digest (the byte list itself); digest equality is
exactly content equality. -/
def calculate_file_checksum (f : RawFile) : Checksum := f.bytes

/-- `Path(p).name`: the part after the last `'/'`. -/
def basenameChars (cs : List Char) : List Char :=
  (cs.reverse.takeWhile (fun c => c ≠ '/')).reverse

/-- `Path(p).name` on strings. -/
def basename (p : String) : String := String.mk (basenameChars p.data)

/-- `Path(p).suffix.lower()`. -/
def suffixOf (p : String) : String :=
  let base := basenameChars p.data
  if '.' ∈ base then
    let revTake := base.reverse.takeWhile (fun c => c ≠ '.')
    if base.length - revTake.length - 1 = 0 then ""
    else String.mk (('.' :: revTake.reverse).map Char.toLower)
  else ""

/-- The fatal error taxonomy of an import call. -/
inductive ImpError
  | fileNotFound
  | formatUnsupported
  | parseFailure
  | balanceDate
deriving DecidableEq, Repr

/-- `import_bank_data.load_file`: missing path raises `FileNotFound`; an
unrecognized suffix raises `FormatUnsupported`; a CSV whose accepted read
does not yield more than one column raises `ParseFailure`. -/
def load_file (fs : FS) (path : String) : Except ImpError Dataset :=
  match lookupFile fs path with
  | none => .error .fileNotFound
  | some f =>
    let sfx := suffixOf path
    if sfx = ".csv" then
      if f.data.columns.length > 1 then .ok f.data else .error .parseFailure
    else if sfx = ".xlsx" ∨ sfx = ".xls" ∨ sfx = ".json" then .ok f.data
    else .error .formatUnsupported

/-! ## `account_manager.extract_account_from_filename`

The three regular expressions of the Python function are embedded as
deterministic matchers (each pattern's quantifiers admit no ambiguous
backtracking: `\s*` is always followed by a non-space literal and the
digit groups have fixed counts). -/

/-- Consume exactly `n` characters satisfying `p`; return the rest. -/
def takeCount (p : Char → Bool) : Nat → List Char → Option (List Char)
  | 0, cs => some cs
  | n + 1, c :: cs => if p c then takeCount p n cs else none
  | _ + 1, [] => none

/-- Does the pattern "spaces, dash, spaces, then a 4-2-2 digit date with
dash or slash separators" match a prefix of `cs`? -/
def matchDashDate (cs : List Char) : Bool :=
  match cs.dropWhile isSpaceCh with
  | '-' :: rest =>
    match takeCount isDigitCh 4 (rest.dropWhile isSpaceCh) with
    | some (s1 :: r1) =>
      if s1 = '-' ∨ s1 = '/' then
        match takeCount isDigitCh 2 r1 with
        | some (s2 :: r2) =>
          if s2 = '-' ∨ s2 = '/' then (takeCount isDigitCh 2 r2).isSome else false
        | _ => false
      else false
    | _ => false
  | _ => false

/-- Non-greedy `^(.+?)` against a following date pattern: the shortest
non-empty newline-free prefix whose remainder matches `matchDashDate`. -/
def tryPattern1 : List Char → List Char → Option (List Char)
  | _, [] => none
  | acc, c :: cs =>
    if c = '\n' then none
    else if matchDashDate cs then some (c :: acc).reverse
    else tryPattern1 (c :: acc) cs

/-- Does `\d{4}[\s\-]\d{2}[\s\-]\d{5}` match at the head of `cs`? -/
def matchAcctNumAt (cs : List Char) : Bool :=
  match takeCount isDigitCh 4 cs with
  | some (s1 :: r1) =>
    if isSpaceCh s1 ∨ s1 = '-' then
      match takeCount isDigitCh 2 r1 with
      | some (s2 :: r2) =>
        if isSpaceCh s2 ∨ s2 = '-' then (takeCount isDigitCh 5 r2).isSome else false
      | _ => false
    else false
  | _ => false

/-- `re.search` for the account-number pattern: end position of the
leftmost match (the match has fixed length 13). -/
def searchAcctNum : Nat → List Char → Option Nat
  | _, [] => none
  | i, cs@(_ :: rest) =>
    if matchAcctNumAt cs then some (i + 13) else searchAcctNum (i + 1) rest

/-- Does the pattern "spaces, dash or underscore, spaces, then a 4-2-2
digit date with dash or slash separators" match a prefix of `cs`? -/
def matchTrailDate (cs : List Char) : Bool :=
  match cs.dropWhile isSpaceCh with
  | c :: rest =>
    if c = '-' ∨ c = '_' then
      match takeCount isDigitCh 4 (rest.dropWhile isSpaceCh) with
      | some (s1 :: r1) =>
        if s1 = '-' ∨ s1 = '/' then
          match takeCount isDigitCh 2 r1 with
          | some (s2 :: r2) =>
            if s2 = '-' ∨ s2 = '/' then (takeCount isDigitCh 2 r2).isSome else false
          | _ => false
        else false
      | _ => false
    else false
  | [] => false

/-- Does `\s*[-_]\s*\d{8}` match a prefix of `cs`? -/
def matchTrailDate8 (cs : List Char) : Bool :=
  match cs.dropWhile isSpaceCh with
  | c :: rest =>
    if c = '-' ∨ c = '_' then
      (takeCount isDigitCh 8 (rest.dropWhile isSpaceCh)).isSome
    else false
  | [] => false

/-- `re.sub(pat + '.*$', '', s)`: truncate at the leftmost match of a
prefix predicate. -/
def truncateAt (p : List Char → Bool) : Nat → List Char → Option Nat
  | _, [] => none
  | i, cs@(_ :: rest) => if p cs then some i else truncateAt p (i + 1) rest

/-- Apply one truncating substitution. -/
def applySub (p : List Char → Bool) (cs : List Char) : List Char :=
  match truncateAt p 0 cs with
  | some i => cs.take i
  | none => cs

/-- `Path(f).name` with the extension removed (`rsplit('.', 1)[0]`). -/
def stripExtChars (cs : List Char) : List Char :=
  if '.' ∈ cs then ((cs.reverse.dropWhile (fun c => c ≠ '.')).drop 1).reverse else cs

/-- `account_manager.extract_account_from_filename`: derive the account
name from a filename — timestamp pattern first, else account-number
pattern, else strip a trailing date-like suffix. -/
def extract_account_from_filename (filename : String) : String :=
  let nameNoExt := stripExtChars (basenameChars filename.data)
  match tryPattern1 [] nameNoExt with
  | some g1 => String.mk (trimChars g1)
  | none =>
    match searchAcctNum 0 nameNoExt with
    | some endPos => String.mk (trimChars (nameNoExt.take endPos))
    | none =>
      let cleaned := applySub matchTrailDate8 (applySub matchTrailDate nameNoExt)
      if cleaned = [] then String.mk nameNoExt else String.mk (trimChars cleaned)

/-! ## The account registry (`account_manager`)

The YAML document is an insertion-ordered map from account names to
accounts; each Python `load_accounts` / mutate / `save_accounts` cycle is
a pure `Registry → Registry` function, and wall-clock timestamps are an
explicit `now` argument. -/

/-- `ImportedFileRecord`: `checksum = none` models the `"unknown"`
sentinel stored when checksumming failed. -/
structure FileRec where
  filename : String
  checksum : Option Checksum
  importDate : String
deriving DecidableEq, Repr

/-- `models.Account`. -/
structure Account where
  account_name : String
  account_number : Option String
  imported_files : List FileRec
  last_import_date : Option String
  transaction_hashes : Finset String
  current_balance : Option Dec
  balance_date : Option Date
  balance_currency : String
deriving DecidableEq

/-- The persisted registry document. -/
abbrev Registry := List (String × Account)

/-- Dictionary lookup. -/
def lookupAcc : Registry → String → Option Account
  | [], _ => none
  | (k, a) :: ps, name => if k = name then some a else lookupAcc ps name

/-- Dictionary update: replace in place, or append a new key (Python
`dict` insertion-order semantics). -/
def setAcc : Registry → String → Account → Registry
  | [], name, acc => [(name, acc)]
  | (k, a) :: ps, name, acc =>
    if k = name then (name, acc) :: ps else (k, a) :: setAcc ps name acc

/-- A freshly created account (`get_or_create_account` with no number). -/
def mkAccount (name : String) : Account :=
  ⟨name, none, [], none, ∅, none, none, "SEK"⟩

/-- `account_manager.is_file_imported`: basename recorded, else whole-file
checksum recorded (checksum failure — e.g. missing file — is swallowed). -/
def is_file_imported (fs : FS) (reg : Registry) (account_name path : String) : Bool :=
  match lookupAcc reg account_name with
  | none => false
  | some account =>
    if account.imported_files.any (fun r => r.filename = basename path) then true
    else
      match lookupFile fs path with
      | none => false
      | some f =>
        account.imported_files.any
          (fun r => r.checksum = some (calculate_file_checksum f))

/-- `account_manager.add_imported_file`. -/
def add_imported_file (fs : FS) (reg : Registry) (now account_name path : String) :
    Registry :=
  let account := (lookupAcc reg account_name).getD (mkAccount account_name)
  let checksum := (lookupFile fs path).map calculate_file_checksum
  setAcc reg account_name
    { account with
      imported_files := account.imported_files ++ [⟨basename path, checksum, now⟩],
      last_import_date := some now }

/-- `account_manager.is_transaction_duplicate`. -/
def is_transaction_duplicate (reg : Registry) (account_name : String)
    (t : Transaction) : Bool :=
  match lookupAcc reg account_name with
  | none => false
  | some account => decide (calculate_transaction_hash t ∈ account.transaction_hashes)

/-- `account_manager.filter_duplicate_transactions`: split an incoming
list into (new, duplicates) against the account's hash set. -/
def filter_duplicate_transactions (reg : Registry) (account_name : String)
    (txs : List Transaction) : List Transaction × List Transaction :=
  (txs.filter (fun t => ! is_transaction_duplicate reg account_name t),
   txs.filter (fun t => is_transaction_duplicate reg account_name t))

/-- `account_manager.register_transactions`: union the hashes of a batch
into the account. -/
def register_transactions (reg : Registry) (account_name : String)
    (txs : List Transaction) : Registry :=
  let account := (lookupAcc reg account_name).getD (mkAccount account_name)
  setAcc reg account_name
    { account with
      transaction_hashes :=
        txs.foldl (fun s t => insert (calculate_transaction_hash t) s)
          account.transaction_hashes }

/-- `account_manager.update_account_balance`. -/
def update_account_balance (reg : Registry) (account_name : String)
    (balance : Dec) (balance_date : Date) (currency : String) : Registry :=
  let account := (lookupAcc reg account_name).getD (mkAccount account_name)
  setAcc reg account_name
    { account with
      current_balance := some balance,
      balance_date := some balance_date,
      balance_currency := currency }

/-- `account_manager.delete_imported_file`: remove the file records whose
basename matches; nothing else changes. -/
def delete_imported_file (reg : Registry) (account_name filename : String) :
    Bool × Registry :=
  match lookupAcc reg account_name with
  | none => (false, reg)
  | some account =>
    let kept := account.imported_files.filter (fun r => r.filename ≠ filename)
    if kept.length < account.imported_files.length then
      (true, setAcc reg account_name { account with imported_files := kept })
    else (false, reg)

/-! ## Row conversion and the import orchestrator
(`import_bank_data.import_and_parse`) -/

/-- Step 6 of `import_and_parse` for one normalized row: skip on missing
or unparseable date or amount, default blank/"nan" description to
`"Transaktion"`, default missing or blank currency to `"SEK"`; any raise
during conversion (including the zero-amount validator and a `KeyError`
on a missing `date`, `amount` or `description` column) drops the row. -/
def rowToTransaction (cols : List String) (row : List Cell) : Option Transaction :=
  match lookupCell cols row "date" with
  | none => none
  | some none => none
  | some (some dateS) =>
    if trimChars dateS.data = [] then none
    else
      match parseDate dateS with
      | none => none
      | some dateVal =>
        match lookupCell cols row "amount" with
        | none => none
        | some none => none
        | some (some amtS) =>
          match parseDecimal (commaToDot amtS) with
          | none => none
          | some amtVal =>
            match lookupCell cols row "description" with
            | none => none
            | some descCell =>
              let description := descCell.getD ""
              let description :=
                if trimChars description.data = [] ∨ strLower description = "nan" then
                  "Transaktion"
                else description
              let currencyCell := (lookupCell cols row "currency").getD none
              let currency :=
                match currencyCell with
                | none => "SEK"
                | some c => if trimChars c.data = [] then "SEK" else c
              match Transaction.make dateVal amtVal (strTrim description) none currency [] with
              | .ok t => some t
              | .error _ => none

/-- The row-conversion loop over a normalized dataset. -/
def parseRows (ds : Dataset) : List Transaction :=
  ds.rows.filterMap (rowToTransaction ds.columns)

/-- Steps 4–6 of the pipeline on a loaded raw dataset: detect the format,
normalize, drop fully-empty rows, convert rows. -/
def pipelineTransactions (ds : Dataset) : List Transaction :=
  parseRows (dropAllNa (normalize_columns ds (detect_format ds)))

/-- The observable outcome of one `import_and_parse` call: the returned
list (or the raised error), the registry afterwards, and whether the
file-level pre-check ran, the file's content was read, and the commit
step ran. -/
instance {ε α : Type} [DecidableEq ε] [DecidableEq α] : DecidableEq (Except ε α) := by
  intro a b
  cases a with
  | error e1 =>
    cases b with
    | error e2 =>
      refine decidable_of_iff (e1 = e2) ⟨congrArg Except.error, ?_⟩
      exact fun hc => Except.error.inj hc
    | ok y => exact isFalse fun hc => by cases hc
  | ok x =>
    cases b with
    | error e2 => exact isFalse fun hc => by cases hc
    | ok y =>
      refine decidable_of_iff (x = y) ⟨congrArg Except.ok, ?_⟩
      exact fun hc => Except.ok.inj hc

structure ImportOutcome where
  result : Except ImpError (List Transaction)
  registry : Registry
  preCheckRan : Bool
  fileRead : Bool
  committed : Bool
deriving DecidableEq

/-- Was the file's basename already recorded for the account?  (When the
pre-check aborts on this condition the file is never opened; when it has
to fall through to the checksum comparison, computing the checksum reads
the file.) -/
def fileNameRecorded (reg : Registry) (account_name path : String) : Bool :=
  match lookupAcc reg account_name with
  | none => false
  | some account => account.imported_files.any (fun r => r.filename = basename path)

/-- `import_bank_data.import_and_parse`: the single-pass pipeline
derive-name → pre-check → load → detect → extract balance → normalize →
parse rows → dedup → commit.  With `check_duplicates = false` the
pre-check and the commit are skipped. -/
def import_and_parse (fs : FS) (reg : Registry) (now : String)
    (file_path : String) (check_duplicates : Bool) : ImportOutcome :=
  let account_name := extract_account_from_filename file_path
  if check_duplicates ∧ is_file_imported fs reg account_name file_path then
    { result := .ok [], registry := reg, preCheckRan := true,
      fileRead := ! fileNameRecorded reg account_name file_path, committed := false }
  else
    match load_file fs file_path with
    | .error e =>
      { result := .error e, registry := reg, preCheckRan := check_duplicates,
        fileRead := true, committed := false }
    | .ok raw_data =>
      let bank_format := detect_format raw_data
      match extract_balance_info raw_data bank_format with
      | .error _ =>
        { result := .error .balanceDate, registry := reg,
          preCheckRan := check_duplicates, fileRead := true, committed := false }
      | .ok balance_info =>
        let normalized := dropAllNa (normalize_columns raw_data bank_format)
        let transactions := parseRows normalized
        if check_duplicates then
          let new_transactions :=
            (filter_duplicate_transactions reg account_name transactions).1
          let reg1 :=
            if new_transactions.isEmpty then reg
            else register_transactions reg account_name new_transactions
          let reg2 :=
            match balance_info with
            | some (b, d, c) => update_account_balance reg1 account_name b d c
            | none => reg1
          let reg3 := add_imported_file fs reg2 now account_name file_path
          { result := .ok new_transactions, registry := reg3, preCheckRan := true,
            fileRead := true, committed := true }
        else
          { result := .ok transactions, registry := reg, preCheckRan := false,
            fileRead := true, committed := false }

/-! ## Supporting lemmas -/

/-- Renaming the header looks a target column up at its source, provided
the mapping sends exactly the source name (among the present columns) to
the target. -/
theorem lookupCell_map (f : String → String) (tgt src : String) :
    ∀ (cols : List String) (r : List Cell),
      (∀ c ∈ cols, (f c = tgt ↔ c = src)) →
      lookupCell (cols.map f) r tgt = lookupCell cols r src := by
  intro cols
  induction cols with
  | nil => intro r _; rfl
  | cons c cs ih =>
    intro r h
    have hc := h c (List.mem_cons_self c cs)
    have hrest : ∀ x ∈ cs, (f x = tgt ↔ x = src) :=
      fun x hx => h x (List.mem_cons_of_mem c hx)
    cases r with
    | nil =>
      simp only [List.map_cons]
      unfold lookupCell
      by_cases hfc : f c = tgt
      · rw [if_pos hfc, if_pos (hc.mp hfc)]
      · rw [if_neg hfc, if_neg (fun hcc => hfc (hc.mpr hcc))]
        exact ih [] hrest
    | cons v vs =>
      simp only [List.map_cons]
      unfold lookupCell
      by_cases hfc : f c = tgt
      · rw [if_pos hfc, if_pos (hc.mp hfc)]
      · rw [if_neg hfc, if_neg (fun hcc => hfc (hc.mpr hcc))]
        exact ih vs hrest

theorem column_rename (f : String → String) (tgt src : String) (ds : Dataset)
    (h : ∀ c ∈ ds.columns, (f c = tgt ↔ c = src)) :
    column (renameDs f ds) tgt = column ds src := by
  unfold column renameDs
  simp only
  exact List.map_congr_left (fun r _ => by rw [lookupCell_map f tgt src ds.columns r h])

/-- Looking a present name up in a row built over the same header. -/
theorem lookupCell_self_map (g : String → Cell) :
    ∀ (names : List String) (tgt : String), tgt ∈ names →
      lookupCell names (names.map g) tgt = some (g tgt) := by
  intro names
  induction names with
  | nil => intro tgt h; cases h
  | cons n ns ih =>
    intro tgt h
    simp only [List.map_cons]
    unfold lookupCell
    by_cases hn : n = tgt
    · rw [if_pos hn, hn]
    · rw [if_neg hn]
      exact ih tgt (by rcases List.mem_cons.mp h with h | h; exact absurd h.symm hn; exact h)

/-- Selecting preserves the cells of a selected column. -/
theorem column_selectCols (ds : Dataset) (names : List String) (tgt : String)
    (h : tgt ∈ names.filter (fun n => n ∈ ds.columns)) :
    column (selectCols ds names) tgt = column ds tgt := by
  unfold column selectCols
  simp only [List.map_map]
  refine List.map_congr_left (fun r _ => ?_)
  simp only [Function.comp_apply]
  rw [lookupCell_self_map (fun n => (lookupCell ds.columns r n).getD none) _ tgt h]
  rfl

theorem dec_toRat_eq_zero_iff (d : Dec) : d.toRat = 0 ↔ d.coeff = 0 := by
  unfold Dec.toRat
  have hpow : (10 : ℚ) ^ d.e ≠ 0 := pow_ne_zero _ (by norm_num)
  rw [div_eq_zero_iff]
  cases hs : d.sign <;> simp [hpow]

/-! ## Claim theorems -/

/-- C10: for every dataset with zero rows, `detect_format` returns
`"Unknown"` regardless of which columns are declared. -/
theorem claim_C10 (ds : Dataset) (h : ds.rows = []) : detect_format ds = "Unknown" := by
  unfold detect_format
  rw [if_pos (show ds.emptyDf = true by simp [Dataset.emptyDf, h])]

/-- Witness for C10: a row-less dataset whose columns exactly match the
Swedbank layout is still classified `"Unknown"`. -/
theorem claim_C10_witness :
    detect_format ⟨["Datum", "Belopp", "Beskrivning"], []⟩ = "Unknown" :=
  claim_C10 ⟨["Datum", "Belopp", "Beskrivning"], []⟩ rfl

/-- C9: constructing a `Transaction` with a numerically zero amount always
fails the validator, so every successfully constructed `Transaction` has a
non-zero amount. -/
theorem claim_C9 :
    (∀ (d : Date) (a : Dec) (desc : String) (cat : Option String) (curr : String)
        (md : List (String × String)), a.toRat = 0 →
        Transaction.make d a desc cat curr md =
          Except.error "Belopp kan inte vara noll") ∧
    (∀ (d : Date) (a : Dec) (desc : String) (cat : Option String) (curr : String)
        (md : List (String × String)) (t : Transaction),
        Transaction.make d a desc cat curr md = Except.ok t → t.amount.toRat ≠ 0) := by
  constructor
  · intro d a desc cat curr md hzero
    unfold Transaction.make
    rw [if_pos]
    unfold Dec.isZero
    simpa [dec_toRat_eq_zero_iff] using hzero
  · intro d a desc cat curr md t hok
    unfold Transaction.make at hok
    split at hok
    · cases hok
    · rename_i hnz
      cases hok
      intro hz
      unfold Dec.isZero at hnz
      exact hnz (by simpa using (dec_toRat_eq_zero_iff a).mp hz)

/-- Witness for C9 at concrete inputs: a zero amount (in a non-trivial
representation, `0.00`) is rejected, and a constructed transaction has a
non-zero amount. -/
theorem claim_C9_witness :
    Transaction.make ⟨2025, 1, 1⟩ ⟨true, 0, 2⟩ "x" none "SEK" [] =
      Except.error "Belopp kan inte vara noll" ∧
    ((⟨2025, 1, 1⟩ : Date), (⟨true, 50000, 2⟩ : Dec)).2.toRat ≠ 0 := by
  constructor
  · exact claim_C9.1 ⟨2025, 1, 1⟩ ⟨true, 0, 2⟩ "x" none "SEK" [] (by norm_num [Dec.toRat])
  · exact claim_C9.2 ⟨2025, 1, 1⟩ ⟨true, 50000, 2⟩ "Mat" none "SEK" []
      ⟨⟨2025, 1, 1⟩, ⟨true, 50000, 2⟩, "Mat", none, "SEK", []⟩ rfl

/-- C2 fails as stated: the hash input joins free text with a literal
`'|'`, so two transactions whose (description, currency) pairs differ can
produce the identical hash input string by pipe injection. -/
theorem claim_C2_counterexample :
    calculate_transaction_hash
        ⟨⟨2025, 1, 1⟩, ⟨false, 5, 0⟩, "x|SEK", none, "SEK", []⟩ =
      calculate_transaction_hash
        ⟨⟨2025, 1, 1⟩, ⟨false, 5, 0⟩, "x", none, "SEK|SEK", []⟩ ∧
    ("x|SEK" : String) ≠ "x" ∧ ("SEK" : String) ≠ "SEK|SEK" := by
  refine ⟨?_, by decide, by decide⟩
  rfl

/-- C2 (amended): the hash is over `date|amount|description|currency` in
canonical field forms, so identical quads hash identically regardless of
category and metadata; and — provided neither description contains the
separator character `'|'` — two transactions hash equal iff the four
fields match exactly. -/
theorem claim_C2 :
    (∀ t1 t2 : Transaction, t1.date = t2.date → t1.amount = t2.amount →
      t1.description = t2.description → t1.currency = t2.currency →
      calculate_transaction_hash t1 = calculate_transaction_hash t2) ∧
    (∀ t1 t2 : Transaction, ('|' : Char) ∉ t1.description.data →
      ('|' : Char) ∉ t2.description.data →
      (calculate_transaction_hash t1 = calculate_transaction_hash t2 ↔
        (t1.date = t2.date ∧ t1.amount = t2.amount ∧
          t1.description = t2.description ∧ t1.currency = t2.currency))) := by
  constructor
  · intro t1 t2 h1 h2 h3 h4
    unfold calculate_transaction_hash transactionStr
    rw [h1, h2, h3, h4]
  · intro t1 t2 hp1 hp2
    constructor
    · intro h
      exact transactionStr_inj_of_pipe_free t1 t2 hp1 hp2 h
    · rintro ⟨h1, h2, h3, h4⟩
      unfold calculate_transaction_hash transactionStr
      rw [h1, h2, h3, h4]

/-- Witness for C2 at concrete transactions: two transactions agreeing on
the quad but differing in category and metadata hash identically, and for
pipe-free descriptions hash equality is equivalent to quad equality. -/
theorem claim_C2_witness :
    calculate_transaction_hash
        ⟨⟨2025, 1, 2⟩, ⟨true, 50000, 2⟩, "Mat", none, "SEK", []⟩ =
      calculate_transaction_hash
        ⟨⟨2025, 1, 2⟩, ⟨true, 50000, 2⟩, "Mat", some "Food", "SEK", [("k", "v")]⟩ ∧
    (calculate_transaction_hash
        ⟨⟨2025, 1, 2⟩, ⟨true, 50000, 2⟩, "Mat", none, "SEK", []⟩ =
      calculate_transaction_hash
        ⟨⟨2025, 1, 2⟩, ⟨true, 50001, 2⟩, "Mat", none, "SEK", []⟩ ↔
      ((⟨2025, 1, 2⟩ : Date) = ⟨2025, 1, 2⟩ ∧ (⟨true, 50000, 2⟩ : Dec) = ⟨true, 50001, 2⟩ ∧
        ("Mat" : String) = "Mat" ∧ ("SEK" : String) = "SEK")) := by
  constructor
  · exact claim_C2.1 ⟨⟨2025, 1, 2⟩, ⟨true, 50000, 2⟩, "Mat", none, "SEK", []⟩
      ⟨⟨2025, 1, 2⟩, ⟨true, 50000, 2⟩, "Mat", some "Food", "SEK", [("k", "v")]⟩
      rfl rfl rfl rfl
  · exact claim_C2.2 ⟨⟨2025, 1, 2⟩, ⟨true, 50000, 2⟩, "Mat", none, "SEK", []⟩
      ⟨⟨2025, 1, 2⟩, ⟨true, 50001, 2⟩, "Mat", none, "SEK", []⟩ (by decide) (by decide)

/-- A dataset whose case-folded column set contains a given name has a
non-empty header. -/
theorem columns_ne_nil_of_mem (ds : Dataset) (n : String)
    (h : n ∈ ds.columns.map strLower) : ds.columns ≠ [] := by
  intro hnil
  rw [hnil] at h
  simp at h

/-- C3: on non-empty datasets, `detect_format` maps the case-folded column
sets of the four bank layouts to their tags, with the Nordea rule checked
before SEB and the Nordea branch excluding the SEB-only layout (a dataset
matching Nordea's broad net that is `Saldo`-bearing without `Valutadatum`
or `Rubrik` falls through to `"SEB"`). -/
theorem claim_C3 :
    (∀ ds : Dataset, ds.rows ≠ [] →
      (∀ c, c ∈ ds.columns.map strLower ↔ c ∈ ["datum", "belopp", "beskrivning"]) →
      detect_format ds = "Swedbank") ∧
    (∀ ds : Dataset, ds.rows ≠ [] →
      (∀ c, c ∈ ds.columns.map strLower ↔ c ∈ ["bokföringsdatum", "belopp", "saldo"]) →
      detect_format ds = "SEB") ∧
    (∀ ds : Dataset, ds.rows ≠ [] →
      (∀ c, c ∈ ds.columns.map strLower ↔
        c ∈ ["bokföringsdag", "belopp", "namn", "rubrik", "saldo", "valuta"]) →
      detect_format ds = "Nordea") ∧
    (∀ ds : Dataset, ds.rows ≠ [] →
      (∀ c, c ∈ ds.columns.map strLower ↔
        c ∈ ["completed date", "description", "amount", "currency"]) →
      detect_format ds = "Revolut") ∧
    (∀ ds : Dataset, ds.rows ≠ [] →
      (∀ c, c ∈ ds.columns.map strLower ↔
        c ∈ ["bokföringsdatum", "belopp", "namn", "saldo"]) →
      detect_format ds = "SEB") := by
  refine ⟨?_, ?_, ?_, ?_, ?_⟩ <;>
    · intro ds hrows hcols
      have hcne : ds.columns ≠ [] :=
        columns_ne_nil_of_mem ds _ ((hcols _).mpr (List.mem_cons_self _ _))
      unfold detect_format
      rw [if_neg (show ¬ ds.emptyDf = true by simp [Dataset.emptyDf, hrows, hcne])]
      simp only [hcols]
      simp

theorem nordeaDateKey_cases (ds : Dataset) (x : String) (h : nordeaDateKey ds = some x) :
    x = "Bokföringsdatum" ∨ x = "Bokföringsdag" := by
  unfold nordeaDateKey at h
  split at h
  · exact Or.inl (Option.some.inj h).symm
  · split at h
    · exact Or.inr (Option.some.inj h).symm
    · cases h

theorem nordeaDescKey_cases (ds : Dataset) (x : String) (h : nordeaDescKey ds = some x) :
    x = "Rubrik" ∨ x = "Namn" ∨ x = "Avsändare" ∨ x = "Mottagare" := by
  unfold nordeaDescKey at h
  split at h
  · exact Or.inl (Option.some.inj h).symm
  · split at h
    · exact Or.inr (Or.inl (Option.some.inj h).symm)
    · split at h
      · exact Or.inr (Or.inr (Or.inl (Option.some.inj h).symm))
      · split at h
        · exact Or.inr (Or.inr (Or.inr (Option.some.inj h).symm))
        · cases h

/-- Under the swap hypotheses, exactly the chosen currency key renames to
`"currency"` among the present columns. -/
theorem nordeaMap_currency_iff (ds : Dataset) (K : String)
    (hK : nordeaCurrencyKey ds = some K) (hKval : K = "Saldo" ∨ K = "Valuta")
    (h3 : "currency" ∉ ds.columns) :
    ∀ c ∈ ds.columns, (nordeaMap ds c = "currency" ↔ c = K) := by
  have hdK : nordeaDateKey ds ≠ some K := by
    intro h
    rcases nordeaDateKey_cases ds K h with h' | h' <;> rcases hKval with h'' | h'' <;>
      rw [h''] at h' <;> exact absurd h' (by decide)
  have hdescK : nordeaDescKey ds ≠ some K := by
    intro h
    rcases nordeaDescKey_cases ds K h with h' | h' | h' | h' <;>
      rcases hKval with h'' | h'' <;> rw [h''] at h' <;> exact absurd h' (by decide)
  have hBK : K ≠ "Belopp" := by
    rcases hKval with h'' | h'' <;> rw [h''] <;> decide
  intro c hc
  unfold nordeaMap
  by_cases hd : nordeaDateKey ds = some c
  · rw [if_pos hd]
    constructor
    · intro h; exact absurd h (by decide)
    · intro h; subst h; exact absurd hd hdK
  · rw [if_neg hd]
    by_cases hb : c = "Belopp"
    · rw [if_pos hb]
      constructor
      · intro h; exact absurd h (by decide)
      · intro h; rw [← h] at hBK; exact absurd hb hBK
    · rw [if_neg hb]
      by_cases hdc : nordeaDescKey ds = some c
      · rw [if_pos hdc]
        constructor
        · intro h; exact absurd h (by decide)
        · intro h; subst h; exact absurd hdc hdescK
      · rw [if_neg hdc]
        by_cases hcc : nordeaCurrencyKey ds = some c
        · rw [if_pos hcc]
          rw [hK] at hcc
          exact ⟨fun _ => (Option.some.inj hcc).symm, fun _ => rfl⟩
        · rw [if_neg hcc]
          constructor
          · intro h; rw [h] at hc; exact absurd hc h3
          · intro h; subst h; exact absurd hK hcc

theorem nordeaCurrencyKey_both (ds : Dataset) (h1 : "Saldo" ∈ ds.columns)
    (h2 : "Valuta" ∈ ds.columns) :
    nordeaCurrencyKey ds =
      some (if allNull (column ds "Valuta") then "Saldo" else "Valuta") := by
  unfold nordeaCurrencyKey
  rw [if_pos ⟨h1, h2⟩]
  split <;> rfl

/-- C4 fails as stated: `normalize_columns` swaps on "currency column
entirely null" alone; it never samples the balance column for literal
currency codes.  Here the `Valuta` column is entirely null while `Saldo`
holds the number `"123.45"`, yet `Saldo` is still used as the currency
source. -/
theorem claim_C4_counterexample :
    detect_format ⟨["Bokföringsdag", "Belopp", "Namn", "Rubrik", "Saldo", "Valuta"],
      [[some "2025-10-21", some "-500,00", some "X", some "R", some "123.45", none]]⟩ =
        "Nordea" ∧
    allNull (column ⟨["Bokföringsdag", "Belopp", "Namn", "Rubrik", "Saldo", "Valuta"],
      [[some "2025-10-21", some "-500,00", some "X", some "R", some "123.45", none]]⟩
        "Valuta") = true ∧
    firstNonNull (column ⟨["Bokföringsdag", "Belopp", "Namn", "Rubrik", "Saldo", "Valuta"],
      [[some "2025-10-21", some "-500,00", some "X", some "R", some "123.45", none]]⟩
        "Saldo") = some "123.45" ∧
    strStripUpper "123.45" ∉ currencyCodes ∧
    column (normalize_columns
      ⟨["Bokföringsdag", "Belopp", "Namn", "Rubrik", "Saldo", "Valuta"],
       [[some "2025-10-21", some "-500,00", some "X", some "R", some "123.45", none]]⟩
      "Nordea") "currency" = [some "123.45"] := by
  refine ⟨rfl, rfl, rfl, by decide, rfl⟩

/-- C4 (amended): for every Nordea-tagged dataset containing both `Saldo`
and `Valuta` (and no literal `currency` column), `normalize_columns` uses
the balance column as the currency source exactly when the currency
column is entirely null — regardless of what the balance column holds;
otherwise the currency column is used. -/
theorem claim_C4 (ds : Dataset) (h1 : "Saldo" ∈ ds.columns)
    (h2 : "Valuta" ∈ ds.columns) (h3 : "currency" ∉ ds.columns) :
    (allNull (column ds "Valuta") = true →
      column (normalize_columns ds "Nordea") "currency" = column ds "Saldo") ∧
    (allNull (column ds "Valuta") = false →
      column (normalize_columns ds "Nordea") "currency" = column ds "Valuta") := by
  have main : ∀ K, nordeaCurrencyKey ds = some K → (K = "Saldo" ∨ K = "Valuta") →
      column (normalize_columns ds "Nordea") "currency" = column ds K := by
    intro K hK hKval
    have hiff : ∀ c ∈ ds.columns, (nordeaMap ds c = "currency" ↔ c = K) :=
      nordeaMap_currency_iff ds K hK hKval h3
    have hKmem : K ∈ ds.columns := by
      rcases hKval with h | h <;> rw [h]
      · exact h1
      · exact h2
    have hfm : formatMapping ds "Nordea" = nordeaMap ds := by
      unfold formatMapping
      rw [if_pos rfl]
    have hcmem : "currency" ∈ (renameDs (formatMapping ds "Nordea") ds).columns := by
      unfold renameDs
      rw [hfm]
      exact List.mem_map.mpr ⟨K, hKmem, (hiff K hKmem).mpr rfl⟩
    have hn : normalize_columns ds "Nordea" =
        selectCols (renameDs (formatMapping ds "Nordea") ds) canonicalCols := by
      unfold normalize_columns
      rw [if_pos (Or.inl rfl)]
      simp only
      rw [if_pos hcmem]
    rw [hn]
    rw [column_selectCols _ canonicalCols "currency"
      (List.mem_filter.mpr ⟨by simp [canonicalCols], by simpa using hcmem⟩)]
    rw [hfm]
    exact column_rename (nordeaMap ds) "currency" K ds hiff
  have hboth := nordeaCurrencyKey_both ds h1 h2
  constructor
  · intro hAll
    rw [hAll] at hboth
    exact main "Saldo" (by simpa using hboth) (Or.inl rfl)
  · intro hAll
    rw [hAll] at hboth
    exact main "Valuta" (by simpa using hboth) (Or.inr rfl)

/-- Witness for C4 at concrete datasets: the swap fires on an all-null
`Valuta` column and does not fire on a populated one. -/
theorem claim_C4_witness :
    column (normalize_columns
      ⟨["Bokföringsdag", "Belopp", "Namn", "Saldo", "Valuta"],
       [[some "2025-10-21", some "-500,00", some "X", some "SEK", none]]⟩
      "Nordea") "currency" =
      column ⟨["Bokföringsdag", "Belopp", "Namn", "Saldo", "Valuta"],
       [[some "2025-10-21", some "-500,00", some "X", some "SEK", none]]⟩ "Saldo" ∧
    column (normalize_columns
      ⟨["Bokföringsdag", "Belopp", "Namn", "Saldo", "Valuta"],
       [[some "2025-10-21", some "-500,00", some "X", some "100,00", some "EUR"]]⟩
      "Nordea") "currency" =
      column ⟨["Bokföringsdag", "Belopp", "Namn", "Saldo", "Valuta"],
       [[some "2025-10-21", some "-500,00", some "X", some "100,00", some "EUR"]]⟩
        "Valuta" :=
  ⟨(claim_C4 _ (by decide) (by decide) (by decide)).1 rfl,
   (claim_C4 _ (by decide) (by decide) (by decide)).2 rfl⟩

/-- C5 fails as stated: for the format tag `"Unknown"` (and any other
unrecognized tag) `normalize_columns` is a passthrough, so a non-canonical
column survives and no `currency` column is added. -/
theorem claim_C5_counterexample :
    (normalize_columns ⟨["Foo"], [[some "x"]]⟩ "Unknown").columns = ["Foo"] ∧
    ("Foo" : String) ∉ canonicalCols ∧
    "currency" ∉ (normalize_columns ⟨["Foo"], [[some "x"]]⟩ "Unknown").columns := by
  refine ⟨rfl, by decide, by decide⟩

theorem padTo_length (n : Nat) (r : List Cell) : (padTo n r).length = n := by
  unfold padTo
  simp only [List.length_append, List.length_take, List.length_replicate]
  omega

theorem lookupCell_append_last (name : String) (v : Cell) :
    ∀ (cols : List String) (row : List Cell), name ∉ cols → row.length = cols.length →
      lookupCell (cols ++ [name]) (row ++ [v]) name = some v := by
  intro cols
  induction cols with
  | nil =>
    intro row _ hlen
    have hr : row = [] := List.eq_nil_of_length_eq_zero hlen
    subst hr
    simp [lookupCell]
  | cons c cs ih =>
    intro row hmem hlen
    cases row with
    | nil => exact absurd hlen (by simp)
    | cons r rs =>
      simp only [List.cons_append]
      unfold lookupCell
      rw [if_neg (fun h => hmem (by rw [← h]; exact List.mem_cons_self c cs))]
      exact ih rs (fun h => hmem (List.mem_cons_of_mem c h)) (by simpa using hlen)

theorem map_const_cell (l : List (List Cell)) (b : Cell) :
    l.map (fun _ => b) = List.replicate l.length b := by
  induction l with
  | nil => rfl
  | cons x xs ih => simp [List.replicate_succ, ih]

/-- When the added column's name is fresh, every cell of that column of
`addConstCol` is the constant value. -/
theorem column_addConstCol (ds : Dataset) (name val : String)
    (h : name ∉ ds.columns) :
    column (addConstCol ds name val) name =
      List.replicate ds.rows.length (some val) := by
  unfold column addConstCol
  simp only [List.map_map]
  have hcell : ∀ r ∈ ds.rows,
      ((fun r => (lookupCell (ds.columns ++ [name]) r name).getD none) ∘
        (fun r => padTo ds.columns.length r ++ [some val])) r = (some val : Cell) := by
    intro r _
    simp only [Function.comp_apply]
    rw [lookupCell_append_last name (some val) _ _ h (padTo_length _ _)]
    rfl
  rw [List.map_congr_left hcell, map_const_cell]

/-- C5 (amended): for every raw dataset and every recognized format tag
(Nordea, Swedbank, SEB, Revolut, Generic), `normalize_columns` returns
only canonical columns; a `currency` column is always present; every
other canonical column present is the image of a source column under the
format's rename mapping, never fabricated; and whenever no source column
resolves to currency the fabricated column's cells all default to
`"SEK"`.  For every unrecognized tag (e.g. `"Unknown"`) the dataset
passes through unchanged. -/
theorem claim_C5 :
    (∀ (ds : Dataset) (fmt : String),
      fmt = "Nordea" ∨ fmt = "Swedbank" ∨ fmt = "SEB" ∨
        fmt = "Revolut" ∨ fmt = "Generic" →
      (∀ c ∈ (normalize_columns ds fmt).columns, c ∈ canonicalCols) ∧
      "currency" ∈ (normalize_columns ds fmt).columns ∧
      (∀ c ∈ (normalize_columns ds fmt).columns, c ≠ "currency" →
        ∃ src ∈ ds.columns, formatMapping ds fmt src = c) ∧
      ((∀ src ∈ ds.columns, formatMapping ds fmt src ≠ "currency") →
        column (normalize_columns ds fmt) "currency" =
          List.replicate ds.rows.length (some "SEK"))) ∧
    (∀ (ds : Dataset) (fmt : String),
      fmt ≠ "Nordea" → fmt ≠ "Swedbank" → fmt ≠ "SEB" →
        fmt ≠ "Revolut" → fmt ≠ "Generic" →
      normalize_columns ds fmt = ds) := by
  constructor
  · intro ds fmt hfmt
    have hdf2 : ∀ c, c ∈ (if "currency" ∈ (renameDs (formatMapping ds fmt) ds).columns
          then renameDs (formatMapping ds fmt) ds
          else addConstCol (renameDs (formatMapping ds fmt) ds) "currency" "SEK").columns ↔
        (c ∈ (renameDs (formatMapping ds fmt) ds).columns ∨ c = "currency") := by
      intro c
      split <;> rename_i hcc
      · constructor
        · intro h; exact Or.inl h
        · intro h
          rcases h with h | h
          · exact h
          · rw [h]; exact hcc
      · unfold addConstCol
        simp only [List.mem_append, List.mem_singleton]
    have hn : normalize_columns ds fmt =
        selectCols (if "currency" ∈ (renameDs (formatMapping ds fmt) ds).columns
          then renameDs (formatMapping ds fmt) ds
          else addConstCol (renameDs (formatMapping ds fmt) ds) "currency" "SEK")
          canonicalCols := by
      unfold normalize_columns
      rw [if_pos hfmt]
    rw [hn]
    refine ⟨?_, ?_, ?_, ?_⟩
    · intro c hc
      exact (List.mem_filter.mp hc).1
    · refine List.mem_filter.mpr ⟨by simp [canonicalCols], ?_⟩
      simp only [decide_eq_true_eq]
      exact (hdf2 "currency").mpr (Or.inr rfl)
    · intro c hc hne
      have hc2 := (List.mem_filter.mp hc).2
      simp only [decide_eq_true_eq] at hc2
      rcases (hdf2 c).mp hc2 with h | h
      · unfold renameDs at h
        simp only [List.mem_map] at h
        exact h
      · exact absurd h hne
    · intro hnc
      have hncol : "currency" ∉ (renameDs (formatMapping ds fmt) ds).columns := by
        intro hmem
        unfold renameDs at hmem
        simp only [List.mem_map] at hmem
        obtain ⟨src, hsrc, heq⟩ := hmem
        exact hnc src hsrc heq
      rw [if_neg hncol]
      rw [column_selectCols _ canonicalCols "currency"
        (List.mem_filter.mpr ⟨by simp [canonicalCols], by simp [addConstCol]⟩)]
      exact column_addConstCol (renameDs (formatMapping ds fmt) ds) "currency" "SEK" hncol
  · intro ds fmt h1 h2 h3 h4 h5
    unfold normalize_columns
    rw [if_neg (by simp [h1, h2, h3, h4, h5])]

/-- Witness for C5 at concrete inputs: a Swedbank dataset missing both the
description and the `Valuta` source column yields only canonical columns,
a `currency` column whose single cell is the default `"SEK"`, and
traceable non-currency columns; and an unrecognized tag passes a
non-canonical dataset through unchanged. -/
theorem claim_C5_witness :
    (∀ c ∈ (normalize_columns ⟨["Datum", "Belopp"],
        [[some "2025-01-02", some "1"]]⟩ "Swedbank").columns, c ∈ canonicalCols) ∧
    "currency" ∈ (normalize_columns ⟨["Datum", "Belopp"],
        [[some "2025-01-02", some "1"]]⟩ "Swedbank").columns ∧
    (∀ c ∈ (normalize_columns ⟨["Datum", "Belopp"],
        [[some "2025-01-02", some "1"]]⟩ "Swedbank").columns, c ≠ "currency" →
      ∃ src ∈ (["Datum", "Belopp"] : List String),
        formatMapping ⟨["Datum", "Belopp"], [[some "2025-01-02", some "1"]]⟩
          "Swedbank" src = c) ∧
    column (normalize_columns ⟨["Datum", "Belopp"],
        [[some "2025-01-02", some "1"]]⟩ "Swedbank") "currency" =
      List.replicate 1 (some "SEK") ∧
    normalize_columns ⟨["Foo"], [[some "x"]]⟩ "Unknown" = ⟨["Foo"], [[some "x"]]⟩ := by
  have h1 := claim_C5.1 ⟨["Datum", "Belopp"], [[some "2025-01-02", some "1"]]⟩
    "Swedbank" (Or.inr (Or.inl rfl))
  exact ⟨h1.1, h1.2.1, h1.2.2.1, h1.2.2.2 (by decide),
    claim_C5.2 ⟨["Foo"], [[some "x"]]⟩ "Unknown" (by decide) (by decide) (by decide)
      (by decide) (by decide)⟩

theorem allNull_false_of_lastNonNull (cells : List Cell) (v : String)
    (h : lastNonNull cells = some v) : allNull cells = false := by
  cases hval : allNull cells
  · rfl
  · exfalso
    have hnil : cells.filterMap id = [] := by
      rw [List.filterMap_eq_nil_iff]
      intro a ha
      have := List.all_eq_true.mp hval a ha
      simpa using this
    unfold lastNonNull at h
    rw [hnil] at h
    cases h

/-- C6 fails as stated: when the last non-null `Bokföringsdatum` value
does not parse as a date, the SEB branch raises from `pd.to_datetime`
instead of returning the balance, even though the `Saldo` hypotheses of
the claim hold. -/
theorem claim_C6_counterexample :
    detect_format ⟨["Bokföringsdatum", "Belopp", "Saldo"],
      [[some "notadate", some "5", some "100"]]⟩ = "SEB" ∧
    lastNonNull (column ⟨["Bokföringsdatum", "Belopp", "Saldo"],
      [[some "notadate", some "5", some "100"]]⟩ "Saldo") = some "100" ∧
    parseDecimal (cleanNumStr "100") = some ⟨false, 100, 0⟩ ∧
    lastNonNull (column ⟨["Bokföringsdatum", "Belopp", "Saldo"],
      [[some "notadate", some "5", some "100"]]⟩ "Bokföringsdatum") =
      some "notadate" ∧
    extract_balance_info ⟨["Bokföringsdatum", "Belopp", "Saldo"],
      [[some "notadate", some "5", some "100"]]⟩ "SEB" = Except.error () := by
  refine ⟨rfl, rfl, rfl, rfl, rfl⟩

/-- C6 (amended): `extract_balance_info` reports absence for every format
tag other than Nordea and SEB; and for every SEB-tagged dataset whose
`Saldo` column has a decimal-parseable last non-null value and whose
`Bokföringsdatum` column has a parseable non-null last value, the
returned balance is that last non-null `Saldo` value in file row order
(no re-sorting by date). -/
theorem claim_C6 :
    (∀ (ds : Dataset) (fmt : String), fmt ≠ "Nordea" → fmt ≠ "SEB" →
      extract_balance_info ds fmt = .ok none) ∧
    (∀ (ds : Dataset) (v dv : String) (b : Dec) (d : Date),
      "Saldo" ∈ ds.columns → lastNonNull (column ds "Saldo") = some v →
      parseDecimal (cleanNumStr v) = some b →
      "Bokföringsdatum" ∈ ds.columns →
      lastNonNull (column ds "Bokföringsdatum") = some dv →
      parseDate dv = some d →
      ∃ c, extract_balance_info ds "SEB" = .ok (some (b, d, c))) := by
  constructor
  · intro ds fmt h1 h2
    unfold extract_balance_info
    rw [if_neg (by simpa using h1), if_neg (by simpa using h2)]
  · intro ds v dv b d hSm hS hb hDm hD hd
    have hAll : allNull (column ds "Saldo") = false :=
      allNull_false_of_lastNonNull _ _ hS
    have hdate : sebBalanceDate ds = .ok (some d) := by
      unfold sebBalanceDate
      rw [if_pos hDm, hD]
      simp only [hd]
    refine ⟨if "Valuta" ∈ ds.columns ∧ ¬ allNull (column ds "Valuta") then
        (firstNonNull (column ds "Valuta")).getD "SEK" else "SEK", ?_⟩
    unfold extract_balance_info
    rw [if_neg (by decide), if_pos rfl]
    simp only [hdate]
    rw [if_pos ⟨hSm, by rw [hAll]; simp⟩, hS]
    simp only [hb]

/-- Witness for C6 at concrete datasets: a Swedbank-tagged dataset yields
no triple, and a two-row SEB dataset yields the second row's `Saldo` as
the balance. -/
theorem claim_C6_witness :
    extract_balance_info ⟨["Datum", "Belopp", "Beskrivning"],
      [[some "2025-01-02", some "1", some "x"]]⟩ "Swedbank" = .ok none ∧
    (∃ c, extract_balance_info ⟨["Bokföringsdatum", "Belopp", "Saldo"],
      [[some "2025-10-01", some "-500,00", some "100,00"],
       [some "2025-10-02", some "1", some "200,50"]]⟩ "SEB" =
      .ok (some (⟨false, 20050, 2⟩, ⟨2025, 10, 2⟩, c))) :=
  ⟨claim_C6.1 ⟨["Datum", "Belopp", "Beskrivning"],
      [[some "2025-01-02", some "1", some "x"]]⟩ "Swedbank" (by decide) (by decide),
   claim_C6.2 ⟨["Bokföringsdatum", "Belopp", "Saldo"],
      [[some "2025-10-01", some "-500,00", some "100,00"],
       [some "2025-10-02", some "1", some "200,50"]]⟩
      "200,50" "2025-10-02" ⟨false, 20050, 2⟩ ⟨2025, 10, 2⟩
      (by decide) rfl rfl (by decide) rfl rfl⟩

/-- C8: with `check_duplicates = false`, `import_and_parse` skips the
file-level pre-check and the commit step and performs no registry
mutation: the persisted accounts document is identical before and after
the call, whether the call returns transactions or raises. -/
theorem claim_C8 (fs : FS) (reg : Registry) (now path : String) :
    (import_and_parse fs reg now path false).registry = reg ∧
    (import_and_parse fs reg now path false).preCheckRan = false ∧
    (import_and_parse fs reg now path false).committed = false := by
  unfold import_and_parse
  rw [if_neg (by simp)]
  dsimp only
  cases hload : load_file fs path with
  | error e => exact ⟨rfl, rfl, rfl⟩
  | ok raw =>
    dsimp only
    cases hbal : extract_balance_info raw (detect_format raw) with
    | error e => exact ⟨rfl, rfl, rfl⟩
    | ok binfo => exact ⟨rfl, rfl, rfl⟩

/-! ### Registry lemmas for the dedup claims -/

theorem lookupAcc_setAcc (reg : Registry) (name n' : String) (acc : Account) :
    lookupAcc (setAcc reg name acc) n' =
      if n' = name then some acc else lookupAcc reg n' := by
  induction reg with
  | nil =>
    unfold setAcc lookupAcc
    by_cases h : n' = name
    · rw [if_pos h, if_pos (by rw [h])]
    · rw [if_neg h, if_neg (fun hh => h hh.symm)]
      rfl
  | cons p ps ih =>
    rcases p with ⟨k, a⟩
    unfold setAcc
    by_cases hk : k = name
    · rw [if_pos hk]
      unfold lookupAcc
      by_cases hn : n' = name
      · rw [if_pos hn, if_pos (by rw [hn])]
      · rw [if_neg hn, if_neg (fun hh => hn hh.symm),
          if_neg (fun hh => hn ((hh.symm.trans hk)))]
    · rw [if_neg hk]
      unfold lookupAcc
      by_cases hkn : k = n'
      · rw [if_pos hkn, if_neg (fun hh => hk (hkn.trans hh)), if_pos hkn]
      · rw [if_neg hkn, if_neg hkn]
        exact ih

/-- The hash set currently stored for an account (empty when absent). -/
def hashesOf (reg : Registry) (name : String) : Finset String :=
  ((lookupAcc reg name).map (fun a => a.transaction_hashes)).getD ∅

theorem hashesOf_setAcc_mono (reg : Registry) (name : String) (acc' : Account)
    (n : String) (h : hashesOf reg name ⊆ acc'.transaction_hashes) :
    hashesOf reg n ⊆ hashesOf (setAcc reg name acc') n := by
  unfold hashesOf
  rw [lookupAcc_setAcc]
  by_cases hn : n = name
  · rw [if_pos hn, hn]
    exact h
  · rw [if_neg hn]

theorem subset_foldl_insert (txs : List Transaction) :
    ∀ init : Finset String,
      init ⊆ txs.foldl (fun s t => insert (calculate_transaction_hash t) s) init := by
  induction txs with
  | nil => intro init; exact Finset.Subset.refl init
  | cons t ts ih =>
    intro init
    simp only [List.foldl_cons]
    exact Finset.Subset.trans (Finset.subset_insert _ init) (ih _)

theorem mem_foldl_insert (txs : List Transaction) :
    ∀ (init : Finset String) (t : Transaction), t ∈ txs →
      calculate_transaction_hash t ∈
        txs.foldl (fun s x => insert (calculate_transaction_hash x) s) init := by
  induction txs with
  | nil => intro init t h; cases h
  | cons x xs ih =>
    intro init t h
    simp only [List.foldl_cons]
    rcases List.mem_cons.mp h with h | h
    · subst h
      exact subset_foldl_insert xs _ (Finset.mem_insert_self _ init)
    · exact ih _ t h

theorem hashesOf_register_mono (reg : Registry) (name : String)
    (txs : List Transaction) (n : String) :
    hashesOf reg n ⊆ hashesOf (register_transactions reg name txs) n := by
  unfold register_transactions
  refine hashesOf_setAcc_mono reg name _ n ?_
  unfold hashesOf
  cases hl : lookupAcc reg name with
  | none => simp
  | some acc => simpa using subset_foldl_insert txs acc.transaction_hashes

theorem hashesOf_update_balance_mono (reg : Registry) (name : String)
    (b : Dec) (d : Date) (c : String) (n : String) :
    hashesOf reg n ⊆ hashesOf (update_account_balance reg name b d c) n := by
  unfold update_account_balance
  refine hashesOf_setAcc_mono reg name _ n ?_
  unfold hashesOf
  cases hl : lookupAcc reg name with
  | none => simp
  | some acc => simp

theorem hashesOf_add_file_mono (fs : FS) (reg : Registry) (now name path : String)
    (n : String) :
    hashesOf reg n ⊆ hashesOf (add_imported_file fs reg now name path) n := by
  unfold add_imported_file
  refine hashesOf_setAcc_mono reg name _ n ?_
  unfold hashesOf
  cases hl : lookupAcc reg name with
  | none => simp
  | some acc => simp

theorem is_file_imported_none (fs : FS) (reg : Registry) (name path : String)
    (h : lookupAcc reg name = none) : is_file_imported fs reg name path = false := by
  unfold is_file_imported
  rw [h]

theorem filter_dup_none (reg : Registry) (name : String) (txs : List Transaction)
    (h : lookupAcc reg name = none) :
    filter_duplicate_transactions reg name txs = (txs, []) := by
  unfold filter_duplicate_transactions is_transaction_duplicate
  simp [h]

/-- The registry produced by the commit step of a dedup-enabled import in
which every parsed transaction is new: register the hashes, apply the
balance if one was extracted, record the file. -/
def commitRegistry (fs : FS) (reg : Registry) (now name path : String)
    (txs : List Transaction) (binfo : Option (Dec × Date × String)) : Registry :=
  add_imported_file fs
    (match binfo with
      | some (b, d, c) => update_account_balance
          (register_transactions reg name txs) name b d c
      | none => register_transactions reg name txs)
    now name path

/-- Shape of one fresh, successful, dedup-enabled import: the parsed
transactions are all returned and committed, and the file is recorded. -/
theorem import_fresh (fs : FS) (reg : Registry) (now path : String) (f : RawFile)
    (binfo : Option (Dec × Date × String))
    (hload : load_file fs path = Except.ok f.data)
    (hbal : extract_balance_info f.data (detect_format f.data) = Except.ok binfo)
    (hfresh : lookupAcc reg (extract_account_from_filename path) = none)
    (hne : pipelineTransactions f.data ≠ []) :
    import_and_parse fs reg now path true =
      { result := .ok (pipelineTransactions f.data),
        registry := commitRegistry fs reg now (extract_account_from_filename path)
          path (pipelineTransactions f.data) binfo,
        preCheckRan := true, fileRead := true, committed := true } := by
  unfold commitRegistry
  unfold import_and_parse
  rw [if_neg (by simp [is_file_imported_none fs reg _ path hfresh])]
  rw [hload]
  dsimp only
  simp only [hbal]
  simp only [if_true]
  have hPT : parseRows (dropAllNa (normalize_columns f.data (detect_format f.data))) =
      pipelineTransactions f.data := rfl
  rw [hPT, filter_dup_none reg _ _ hfresh]
  dsimp only
  rw [if_neg (by simpa [List.isEmpty_iff] using hne)]

theorem fileNameRecorded_add (fs : FS) (reg : Registry) (now name path : String) :
    fileNameRecorded (add_imported_file fs reg now name path) name path = true := by
  unfold fileNameRecorded add_imported_file
  rw [lookupAcc_setAcc, if_pos rfl]
  dsimp only
  rw [List.any_append]
  simp

/-- Shape of an import aborted by the basename pre-check: nothing is read,
nothing changes, and the empty list is returned. -/
theorem import_recorded (fs : FS) (reg : Registry) (now path : String)
    (hrec : fileNameRecorded reg (extract_account_from_filename path) path = true) :
    import_and_parse fs reg now path true =
      { result := .ok [], registry := reg, preCheckRan := true,
        fileRead := false, committed := false } := by
  have himp : is_file_imported fs reg (extract_account_from_filename path) path = true := by
    unfold fileNameRecorded at hrec
    unfold is_file_imported
    cases hl : lookupAcc reg (extract_account_from_filename path) with
    | none =>
      rw [hl] at hrec
      simp at hrec
    | some acc =>
      rw [hl] at hrec
      simp only at hrec
      dsimp only
      rw [if_pos hrec]
  unfold import_and_parse
  rw [if_pos ⟨rfl, himp⟩]
  rw [hrec]
  rfl

/-- Shape of a successful import whose parsed transactions are all already
recorded: the empty list is returned. -/
theorem import_all_dup (fs : FS) (reg : Registry) (now path : String) (f : RawFile)
    (binfo : Option (Dec × Date × String))
    (hload : load_file fs path = Except.ok f.data)
    (hbal : extract_balance_info f.data (detect_format f.data) = Except.ok binfo)
    (hpre : is_file_imported fs reg (extract_account_from_filename path) path = false)
    (hdup : ∀ t ∈ pipelineTransactions f.data,
      is_transaction_duplicate reg (extract_account_from_filename path) t = true) :
    (import_and_parse fs reg now path true).result = .ok [] := by
  unfold import_and_parse
  rw [if_neg (by simp [hpre])]
  rw [hload]
  dsimp only
  simp only [hbal]
  simp only [if_true]
  have hPT : parseRows (dropAllNa (normalize_columns f.data (detect_format f.data))) =
      pipelineTransactions f.data := rfl
  rw [hPT]
  have hnew : (filter_duplicate_transactions reg (extract_account_from_filename path)
      (pipelineTransactions f.data)).1 = [] := by
    unfold filter_duplicate_transactions
    dsimp only
    rw [List.filter_eq_nil_iff]
    intro t ht
    simp [hdup t ht]
  rw [hnew]

/-- C1 fails as stated: a file whose rows parse into one valid
transaction can still make the first call raise, because
`extract_balance_info` calls `pd.to_datetime` on the last non-null
booking-date value without a `try`/`except` — here an SEB-tagged CSV
whose last row's `Bokföringsdatum` is unparseable.  The call raises
instead of returning the non-empty list the claim requires. -/
theorem claim_C1_counterexample :
    pipelineTransactions ⟨["Bokföringsdatum", "Belopp", "Saldo", "Mottagare"],
      [[some "2025-10-01", some "-500,00", some "100,00", some "Shop"],
       [some "notadate", some "1", some "200,00", some "X"]]⟩ ≠ [] ∧
    lookupAcc ([] : Registry) (extract_account_from_filename "seb.csv") = none ∧
    (import_and_parse
      [("seb.csv", ⟨[9], ⟨["Bokföringsdatum", "Belopp", "Saldo", "Mottagare"],
        [[some "2025-10-01", some "-500,00", some "100,00", some "Shop"],
         [some "notadate", some "1", some "200,00", some "X"]]⟩⟩)]
      [] "t1" "seb.csv" true).result = Except.error ImpError.balanceDate := by
  refine ⟨by decide, rfl, rfl⟩

/-- C1 (amended): for every file whose rows parse into at least one valid
transaction, on which balance extraction does not raise, and every fresh
account, the first dedup-enabled import returns the non-empty parsed
list, the second import on the same unmodified path returns the empty
list without reading the file (the basename pre-check aborts it), the
registry — hence the account's `transaction_hashes` size — is unchanged
by the second call. -/
theorem claim_C1 (fs : FS) (reg : Registry) (now1 now2 path : String) (f : RawFile)
    (binfo : Option (Dec × Date × String))
    (hload : load_file fs path = Except.ok f.data)
    (hbal : extract_balance_info f.data (detect_format f.data) = Except.ok binfo)
    (hfresh : lookupAcc reg (extract_account_from_filename path) = none)
    (hne : pipelineTransactions f.data ≠ []) :
    (import_and_parse fs reg now1 path true).result =
      Except.ok (pipelineTransactions f.data) ∧
    pipelineTransactions f.data ≠ [] ∧
    (import_and_parse fs (import_and_parse fs reg now1 path true).registry
        now2 path true).result = Except.ok [] ∧
    (import_and_parse fs (import_and_parse fs reg now1 path true).registry
        now2 path true).registry = (import_and_parse fs reg now1 path true).registry ∧
    (import_and_parse fs (import_and_parse fs reg now1 path true).registry
        now2 path true).fileRead = false ∧
    (hashesOf (import_and_parse fs (import_and_parse fs reg now1 path true).registry
        now2 path true).registry (extract_account_from_filename path)).card =
      (hashesOf (import_and_parse fs reg now1 path true).registry
        (extract_account_from_filename path)).card := by
  have h1 := import_fresh fs reg now1 path f binfo hload hbal hfresh hne
  have hrec : fileNameRecorded (import_and_parse fs reg now1 path true).registry
      (extract_account_from_filename path) path = true := by
    rw [h1]
    exact fileNameRecorded_add fs _ now1 _ path
  have h2 := import_recorded fs (import_and_parse fs reg now1 path true).registry
    now2 path hrec
  refine ⟨by rw [h1], hne, by rw [h2], by rw [h2], by rw [h2], by rw [h2]⟩

/-- Witness for C1: the two-call scenario on a concrete Swedbank CSV in a
fresh registry — first call returns the two parsed transactions, second
call returns the empty list without reading the file. -/
theorem claim_C1_witness :
    (import_and_parse
      [("Konto 1 - 2025-10-21 09.39.41.csv", ⟨[1, 2], ⟨["Datum", "Belopp", "Beskrivning"],
        [[some "2025-01-02", some "-500,00", some "Mat"],
         [some "2025-01-03", some "28000.00", some "Lön"]]⟩⟩)]
      [] "t1" "Konto 1 - 2025-10-21 09.39.41.csv" true).result =
      Except.ok (pipelineTransactions ⟨["Datum", "Belopp", "Beskrivning"],
        [[some "2025-01-02", some "-500,00", some "Mat"],
         [some "2025-01-03", some "28000.00", some "Lön"]]⟩) ∧
    pipelineTransactions ⟨["Datum", "Belopp", "Beskrivning"],
        [[some "2025-01-02", some "-500,00", some "Mat"],
         [some "2025-01-03", some "28000.00", some "Lön"]]⟩ ≠ [] ∧
    (import_and_parse
      [("Konto 1 - 2025-10-21 09.39.41.csv", ⟨[1, 2], ⟨["Datum", "Belopp", "Beskrivning"],
        [[some "2025-01-02", some "-500,00", some "Mat"],
         [some "2025-01-03", some "28000.00", some "Lön"]]⟩⟩)]
      (import_and_parse
        [("Konto 1 - 2025-10-21 09.39.41.csv", ⟨[1, 2], ⟨["Datum", "Belopp", "Beskrivning"],
          [[some "2025-01-02", some "-500,00", some "Mat"],
           [some "2025-01-03", some "28000.00", some "Lön"]]⟩⟩)]
        [] "t1" "Konto 1 - 2025-10-21 09.39.41.csv" true).registry
      "t2" "Konto 1 - 2025-10-21 09.39.41.csv" true).result = Except.ok [] ∧
    (import_and_parse
      [("Konto 1 - 2025-10-21 09.39.41.csv", ⟨[1, 2], ⟨["Datum", "Belopp", "Beskrivning"],
        [[some "2025-01-02", some "-500,00", some "Mat"],
         [some "2025-01-03", some "28000.00", some "Lön"]]⟩⟩)]
      (import_and_parse
        [("Konto 1 - 2025-10-21 09.39.41.csv", ⟨[1, 2], ⟨["Datum", "Belopp", "Beskrivning"],
          [[some "2025-01-02", some "-500,00", some "Mat"],
           [some "2025-01-03", some "28000.00", some "Lön"]]⟩⟩)]
        [] "t1" "Konto 1 - 2025-10-21 09.39.41.csv" true).registry
      "t2" "Konto 1 - 2025-10-21 09.39.41.csv" true).fileRead = false := by
  have h := claim_C1
    [("Konto 1 - 2025-10-21 09.39.41.csv", ⟨[1, 2], ⟨["Datum", "Belopp", "Beskrivning"],
      [[some "2025-01-02", some "-500,00", some "Mat"],
       [some "2025-01-03", some "28000.00", some "Lön"]]⟩⟩)]
    [] "t1" "t2" "Konto 1 - 2025-10-21 09.39.41.csv"
    ⟨[1, 2], ⟨["Datum", "Belopp", "Beskrivning"],
      [[some "2025-01-02", some "-500,00", some "Mat"],
       [some "2025-01-03", some "28000.00", some "Lön"]]⟩⟩
    none rfl rfl rfl (by decide)
  exact ⟨h.1, h.2.1, h.2.2.1, h.2.2.2.2.1⟩

/-- `delete_imported_file` removes only the matching file records of the
named account and leaves everything else — other accounts, and every
other field of the named account including `transaction_hashes` —
unchanged. -/
theorem delete_frame (reg : Registry) (name fn : String) :
    (∀ n', n' ≠ name →
      lookupAcc (delete_imported_file reg name fn).2 n' = lookupAcc reg n') ∧
    (∀ acc, lookupAcc reg name = some acc →
      lookupAcc (delete_imported_file reg name fn).2 name =
        some { acc with imported_files :=
          acc.imported_files.filter (fun r => r.filename ≠ fn) }) ∧
    (lookupAcc reg name = none → (delete_imported_file reg name fn).2 = reg) := by
  refine ⟨?_, ?_, ?_⟩
  · intro n' hn'
    unfold delete_imported_file
    cases hl : lookupAcc reg name with
    | none => rfl
    | some acc =>
      dsimp only
      split
      · rw [lookupAcc_setAcc, if_neg hn']
      · rfl
  · intro acc hl
    unfold delete_imported_file
    rw [hl]
    dsimp only
    split <;> rename_i hlen
    · rw [lookupAcc_setAcc, if_pos rfl]
    · have hfl : acc.imported_files.filter (fun r => r.filename ≠ fn) =
          acc.imported_files := by
        have hle := List.length_filter_le (fun r => decide (r.filename ≠ fn))
          acc.imported_files
        have heq : (acc.imported_files.filter (fun r => r.filename ≠ fn)).length =
            acc.imported_files.length := by
          simp only [not_lt] at hlen
          omega
        exact List.filter_eq_self.mpr (List.filter_length_eq_length.mp heq)
      rw [hfl, hl]
  · intro hl
    unfold delete_imported_file
    rw [hl]

/-- `transaction_hashes` only grows under `import_and_parse`, for every
account and with dedup either enabled or disabled. -/
theorem hashesOf_import_mono (fs : FS) (reg : Registry) (now path : String)
    (chk : Bool) (n : String) :
    hashesOf reg n ⊆ hashesOf (import_and_parse fs reg now path chk).registry n := by
  unfold import_and_parse
  by_cases hc : (chk = true ∧
      is_file_imported fs reg (extract_account_from_filename path) path = true)
  · rw [if_pos hc]
  · rw [if_neg hc]
    cases hload : load_file fs path with
    | error e => exact Finset.Subset.refl _
    | ok raw =>
      dsimp only
      cases hbal : extract_balance_info raw (detect_format raw) with
      | error e => exact Finset.Subset.refl _
      | ok binfo =>
        dsimp only
        cases chk with
        | false =>
          rw [if_neg (by simp)]
        | true =>
          rw [if_pos rfl]
          dsimp only
          refine Finset.Subset.trans ?_ (hashesOf_add_file_mono fs _ now _ path n)
          cases binfo with
          | none =>
            dsimp only
            split
            · exact Finset.Subset.refl _
            · exact hashesOf_register_mono reg _ _ n
          | some bdc =>
            rcases bdc with ⟨b, d, c⟩
            dsimp only
            refine Finset.Subset.trans ?_
              (hashesOf_update_balance_mono _ _ b d c n)
            split
            · exact Finset.Subset.refl _
            · exact hashesOf_register_mono reg _ _ n

/-- A dedup-enabled import on a state where the file is not recorded but
every parsed transaction's hash is already in the account returns zero
new transactions. -/
theorem import_all_dup_state (fs : FS) (regD : Registry) (now3 path : String)
    (f : RawFile) (binfo : Option (Dec × Date × String)) (acc4 : Account)
    (hload : load_file fs path = Except.ok f.data)
    (hbal : extract_balance_info f.data (detect_format f.data) = Except.ok binfo)
    (hacc4 : lookupAcc regD (extract_account_from_filename path) = some acc4)
    (hfiles : acc4.imported_files = [])
    (hhash : ∀ t ∈ pipelineTransactions f.data,
      calculate_transaction_hash t ∈ acc4.transaction_hashes) :
    (import_and_parse fs regD now3 path true).result = Except.ok [] := by
  apply import_all_dup fs regD now3 path f binfo hload hbal
  · unfold is_file_imported
    rw [hacc4]
    dsimp only
    rw [if_neg (by simp [hfiles])]
    cases lookupFile fs path with
    | none => rfl
    | some f2 => simp [hfiles]
  · intro t ht
    unfold is_transaction_duplicate
    rw [hacc4]
    dsimp only
    rw [decide_eq_true_eq]
    exact hhash t ht

/-- After a fresh import followed by deleting the imported file's record,
re-importing the same unmodified path returns zero new transactions: the
pre-check no longer fires, but every parsed transaction's hash is still
in the account's (unretracted) hash set. -/
theorem delete_then_reimport (fs : FS) (reg : Registry) (now1 now3 path : String)
    (f : RawFile) (binfo : Option (Dec × Date × String))
    (hload : load_file fs path = Except.ok f.data)
    (hbal : extract_balance_info f.data (detect_format f.data) = Except.ok binfo)
    (hfresh : lookupAcc reg (extract_account_from_filename path) = none)
    (hne : pipelineTransactions f.data ≠ []) :
    (import_and_parse fs
      (delete_imported_file (import_and_parse fs reg now1 path true).registry
        (extract_account_from_filename path) (basename path)).2
      now3 path true).result = Except.ok [] := by
  have h1 := import_fresh fs reg now1 path f binfo hload hbal hfresh hne
  have hA : lookupAcc (register_transactions reg (extract_account_from_filename path)
      (pipelineTransactions f.data)) (extract_account_from_filename path) =
      some ⟨extract_account_from_filename path, none, [], none,
        (pipelineTransactions f.data).foldl
          (fun s t => insert (calculate_transaction_hash t) s) ∅,
        none, none, "SEK"⟩ := by
    unfold register_transactions
    rw [hfresh]
    dsimp only [Option.getD, mkAccount]
    rw [lookupAcc_setAcc, if_pos rfl]
  have h3 : ∃ acc3,
      lookupAcc (commitRegistry fs reg now1 (extract_account_from_filename path)
        path (pipelineTransactions f.data) binfo)
        (extract_account_from_filename path) = some acc3 ∧
      acc3.imported_files = [⟨basename path,
        (lookupFile fs path).map calculate_file_checksum, now1⟩] ∧
      acc3.transaction_hashes = (pipelineTransactions f.data).foldl
        (fun s t => insert (calculate_transaction_hash t) s) ∅ := by
    unfold commitRegistry
    cases binfo with
    | none =>
      refine ⟨⟨extract_account_from_filename path, none,
        [⟨basename path, (lookupFile fs path).map calculate_file_checksum, now1⟩],
        some now1,
        (pipelineTransactions f.data).foldl
          (fun s t => insert (calculate_transaction_hash t) s) ∅,
        none, none, "SEK"⟩, ?_, rfl, rfl⟩
      unfold add_imported_file
      rw [hA]
      dsimp only [Option.getD]
      rw [lookupAcc_setAcc, if_pos rfl]
      simp
    | some bdc =>
      rcases bdc with ⟨b, d, c⟩
      have hB : lookupAcc (update_account_balance
          (register_transactions reg (extract_account_from_filename path)
            (pipelineTransactions f.data))
          (extract_account_from_filename path) b d c)
          (extract_account_from_filename path) =
          some ⟨extract_account_from_filename path, none, [], none,
            (pipelineTransactions f.data).foldl
              (fun s t => insert (calculate_transaction_hash t) s) ∅,
            some b, some d, c⟩ := by
        unfold update_account_balance
        rw [hA]
        dsimp only [Option.getD]
        rw [lookupAcc_setAcc, if_pos rfl]
      refine ⟨⟨extract_account_from_filename path, none,
        [⟨basename path, (lookupFile fs path).map calculate_file_checksum, now1⟩],
        some now1,
        (pipelineTransactions f.data).foldl
          (fun s t => insert (calculate_transaction_hash t) s) ∅,
        some b, some d, c⟩, ?_, rfl, rfl⟩
      unfold add_imported_file
      rw [hB]
      dsimp only [Option.getD]
      rw [lookupAcc_setAcc, if_pos rfl]
      simp
  obtain ⟨acc3, hacc3, hfiles3, hhash3⟩ := h3
  have hacc3' : lookupAcc (import_and_parse fs reg now1 path true).registry
      (extract_account_from_filename path) = some acc3 := by
    rw [h1]
    exact hacc3
  have hdel := (delete_frame (import_and_parse fs reg now1 path true).registry
    (extract_account_from_filename path) (basename path)).2.1 acc3 hacc3'
  apply import_all_dup_state fs _ now3 path f binfo _ hload hbal hdel
  · show acc3.imported_files.filter (fun r => r.filename ≠ basename path) = []
    rw [hfiles3]
    simp
  · intro t ht
    show calculate_transaction_hash t ∈ acc3.transaction_hashes
    rw [hhash3]
    exact mem_foldl_insert _ _ t ht


/-- C7: `delete_imported_file` removes only the matching imported-file
records and leaves `transaction_hashes` (and every other account field,
and every other account) unchanged; `transaction_hashes` only grows under
import; and re-importing the removed file afterwards still yields zero
new transactions (the hashes were deliberately not retracted). -/
theorem claim_C7 :
    (∀ (reg : Registry) (name fn : String),
      (∀ n', n' ≠ name →
        lookupAcc (delete_imported_file reg name fn).2 n' = lookupAcc reg n') ∧
      (∀ acc, lookupAcc reg name = some acc →
        lookupAcc (delete_imported_file reg name fn).2 name =
          some { acc with imported_files :=
            acc.imported_files.filter (fun r => r.filename ≠ fn) }) ∧
      (lookupAcc reg name = none → (delete_imported_file reg name fn).2 = reg)) ∧
    (∀ (fs : FS) (reg : Registry) (now path : String) (chk : Bool) (n : String),
      hashesOf reg n ⊆ hashesOf (import_and_parse fs reg now path chk).registry n) ∧
    (∀ (fs : FS) (reg : Registry) (now1 now3 path : String) (f : RawFile)
        (binfo : Option (Dec × Date × String)),
      load_file fs path = Except.ok f.data →
      extract_balance_info f.data (detect_format f.data) = Except.ok binfo →
      lookupAcc reg (extract_account_from_filename path) = none →
      pipelineTransactions f.data ≠ [] →
      (import_and_parse fs
        (delete_imported_file (import_and_parse fs reg now1 path true).registry
          (extract_account_from_filename path) (basename path)).2
        now3 path true).result = Except.ok []) :=
  ⟨delete_frame,
   hashesOf_import_mono,
   fun fs reg now1 now3 path f binfo hload hbal hfresh hne =>
     delete_then_reimport fs reg now1 now3 path f binfo hload hbal hfresh hne⟩

/-- Witness for C7 at concrete inputs: deleting one of two file records
keeps the other record and the hash set; the hash set grows monotonically
under a concrete import; and the import–delete–reimport scenario on a
concrete Swedbank CSV returns zero new transactions. -/
theorem claim_C7_witness :
    lookupAcc (delete_imported_file
      [("A", ⟨"A", none, [⟨"f1.csv", some [1], "t"⟩, ⟨"f2.csv", some [2], "t"⟩],
        none, {"h1"}, none, none, "SEK"⟩)] "A" "f1.csv").2 "A" =
      some ⟨"A", none, [⟨"f2.csv", some [2], "t"⟩],
        none, {"h1"}, none, none, "SEK"⟩ ∧
    hashesOf [("A", ⟨"A", none, [], none, {"h1"}, none, none, "SEK"⟩)] "A" ⊆
      hashesOf (import_and_parse
        [("B.csv", ⟨[7], ⟨["Datum", "Belopp", "Beskrivning"],
          [[some "2025-01-02", some "-500,00", some "Mat"]]⟩⟩)]
        [("A", ⟨"A", none, [], none, {"h1"}, none, none, "SEK"⟩)]
        "t1" "B.csv" true).registry "A" ∧
    (import_and_parse
      [("B.csv", ⟨[7], ⟨["Datum", "Belopp", "Beskrivning"],
        [[some "2025-01-02", some "-500,00", some "Mat"]]⟩⟩)]
      (delete_imported_file
        (import_and_parse
          [("B.csv", ⟨[7], ⟨["Datum", "Belopp", "Beskrivning"],
            [[some "2025-01-02", some "-500,00", some "Mat"]]⟩⟩)]
          [] "t1" "B.csv" true).registry
        (extract_account_from_filename "B.csv") (basename "B.csv")).2
      "t3" "B.csv" true).result = Except.ok [] := by
  refine ⟨?_, ?_, ?_⟩
  · exact (claim_C7.1
      [("A", ⟨"A", none, [⟨"f1.csv", some [1], "t"⟩, ⟨"f2.csv", some [2], "t"⟩],
        none, {"h1"}, none, none, "SEK"⟩)] "A" "f1.csv").2.1
      ⟨"A", none, [⟨"f1.csv", some [1], "t"⟩, ⟨"f2.csv", some [2], "t"⟩],
        none, {"h1"}, none, none, "SEK"⟩ rfl
  · exact claim_C7.2.1
      [("B.csv", ⟨[7], ⟨["Datum", "Belopp", "Beskrivning"],
        [[some "2025-01-02", some "-500,00", some "Mat"]]⟩⟩)]
      [("A", ⟨"A", none, [], none, {"h1"}, none, none, "SEK"⟩)] "t1" "B.csv" true "A"
  · exact claim_C7.2.2
      [("B.csv", ⟨[7], ⟨["Datum", "Belopp", "Beskrivning"],
        [[some "2025-01-02", some "-500,00", some "Mat"]]⟩⟩)]
      [] "t1" "t3" "B.csv"
      ⟨[7], ⟨["Datum", "Belopp", "Beskrivning"],
        [[some "2025-01-02", some "-500,00", some "Mat"]]⟩⟩
      none rfl rfl rfl (by decide)

/-- Witness for C3: each of the five mappings at a concrete one-row
dataset with exactly the listed columns. -/
theorem claim_C3_witness :
    detect_format ⟨["Datum", "Belopp", "Beskrivning"], [[none, none, none]]⟩ = "Swedbank" ∧
    detect_format ⟨["Bokföringsdatum", "Belopp", "Saldo"], [[none, none, none]]⟩ = "SEB" ∧
    detect_format ⟨["Bokföringsdag", "Belopp", "Namn", "Rubrik", "Saldo", "Valuta"],
      [[none, none, none, none, none, none]]⟩ = "Nordea" ∧
    detect_format ⟨["Completed Date", "Description", "Amount", "Currency"],
      [[none, none, none, none]]⟩ = "Revolut" ∧
    detect_format ⟨["Bokföringsdatum", "Belopp", "Namn", "Saldo"],
      [[none, none, none, none]]⟩ = "SEB" :=
  ⟨claim_C3.1 _ (by decide) (fun c => Iff.rfl),
   claim_C3.2.1 _ (by decide) (fun c => Iff.rfl),
   claim_C3.2.2.1 _ (by decide) (fun c => Iff.rfl),
   claim_C3.2.2.2.1 _ (by decide) (fun c => Iff.rfl),
   claim_C3.2.2.2.2 _ (by decide) (fun c => Iff.rfl)⟩

end BudgetAgent
